import Mathlib

set_option linter.unnecessarySeqFocus false

/-
Verification of the quadrilateral-mesh function-space topology layer
(src/warp/fem/space/quadmesh_function_space.py).

The embedding below translates the source into plain Lean functions.
Mesh adjacency arrays are represented as total functions on naturals;
all index arithmetic is on `Nat`.  Subtraction is truncated, which agrees
with the source's integer arithmetic on every in-range input considered
by the theorems of this development.
-/

/-- The `wp.select` builtin of the surrounding kernel framework:
`select(cond, arg1, arg2)` returns `arg1` when `cond` is false and `arg2`
when `cond` is true (the framework documents this order explicitly; it is
the reverse of a conventional ternary operator). -/
def wp_select (c : Prop) [Decidable c] (a b : Nat) : Nat :=
  if c then b else a

/-- Modelled from the spec: the part of the mesh cell argument
(`Quadmesh2D.CellArg.topology`, not under src/) read by the node-index
functions — the per-quad vertex lists (`quad_vertex_indices`, cell_count x 4,
fixed cyclic order, spec section 6). -/
structure Quadmesh2DCellArg where
  quad_vertex_indices : Nat → Nat → Nat

/-- The `Quadmesh2DTopologyArg` struct (source lines 15-21): per-edge canonical
vertex pairs, the per-quad edge-slot table, and the vertex/edge counts. -/
structure Quadmesh2DTopologyArg where
  edge_vertex_indices : Nat → Nat × Nat
  quad_edge_indices : Nat → Nat → Nat
  vertex_count : Nat
  edge_count : Nat

/-- Modelled from the spec: the `Quadmesh2D` geometry object (not under src/),
exposing the adjacency arrays and counts consumed by this layer
(spec section 6).  `side_count` is the number of edges. -/
structure Quadmesh2D where
  vertex_count : Nat
  side_count : Nat
  cell_count : Nat
  quad_vertex_indices : Nat → Nat → Nat
  edge_vertex_indices : Nat → Nat × Nat
  edge_quad_indices : Nat → Nat × Nat

/-- Source `_find_edge_index_in_quad` (lines 68-78): scan slots 0,1,2 for the
first whose vertex pair `(k, k+1)` equals the edge's vertex pair in either
orientation; fall back to slot 3. -/
def find_edge_index_in_quad (edge_vtx : Nat × Nat) (quad_vtx : Nat → Nat) : Nat :=
  if (edge_vtx.1 = quad_vtx 0 ∧ edge_vtx.2 = quad_vtx 1) ∨
     (edge_vtx.2 = quad_vtx 0 ∧ edge_vtx.1 = quad_vtx 1) then 0
  else if (edge_vtx.1 = quad_vtx 1 ∧ edge_vtx.2 = quad_vtx 2) ∨
     (edge_vtx.2 = quad_vtx 1 ∧ edge_vtx.1 = quad_vtx 2) then 1
  else if (edge_vtx.1 = quad_vtx 2 ∧ edge_vtx.2 = quad_vtx 3) ∨
     (edge_vtx.2 = quad_vtx 2 ∧ edge_vtx.1 = quad_vtx 3) then 2
  else 3

/-- The writes performed for edge `e` by one thread of
`_compute_quad_edge_indices_kernel` (source lines 80-111), as a list of
`(quad, slot, edge)` triples in program order. -/
def kernel_writes (m : Quadmesh2D) (e : Nat) : List (Nat × Nat × Nat) :=
  let edge_vtx := m.edge_vertex_indices e
  let q0 := (m.edge_quad_indices e).1
  let q0_edge := find_edge_index_in_quad edge_vtx (m.quad_vertex_indices q0)
  let q1 := (m.edge_quad_indices e).2
  if q1 ≠ q0 then
    let t1_edge := find_edge_index_in_quad edge_vtx (m.quad_vertex_indices q1)
    [(q0, q0_edge, e), (q1, t1_edge, e)]
  else
    [(q0, q0_edge, e)]

/-- Apply a list of `(quad, slot, edge)` writes to a table, in order. -/
def apply_writes (tbl : Nat → Nat → Nat) : List (Nat × Nat × Nat) → (Nat → Nat → Nat)
  | [] => tbl
  | (q, k, e) :: ws =>
      apply_writes (fun q' k' => if q' = q ∧ k' = k then e else tbl q' k') ws

/-- `_compute_quad_edge_indices` (source lines 51-66): launch one unit of work
per edge.  The launch is modelled as a sequential fold over edge ids; under
the disjoint-write precondition of spec section 4.1 the order is irrelevant.
The source allocates the table with `wp.empty` (uninitialized); the model
starts from the all-zero table. -/
def compute_quad_edge_indices (m : Quadmesh2D) : Nat → Nat → Nat :=
  (List.range m.side_count).foldl
    (fun tbl e => apply_writes tbl (kernel_writes m e)) (fun _ _ => 0)

/-- `Quadmesh2DBipolynomialSpaceTopology.element_node_index` after the
`divmod` of lines 143-144, taking the tensor coordinates `(node_i, node_j)`
directly (source lines 146-202). -/
def bipoly_node_index_ij (ORDER : Nat) (cell : Quadmesh2DCellArg)
    (topo : Quadmesh2DTopologyArg) (element_index node_i node_j : Nat) : Nat :=
  let INTERIOR_NODES_PER_SIDE := max 0 (ORDER - 1)
  let INTERIOR_NODES_PER_CELL := INTERIOR_NODES_PER_SIDE ^ 2
  if node_i = 0 then
    if node_j = 0 then cell.quad_vertex_indices element_index 0
    else if node_j = ORDER then cell.quad_vertex_indices element_index 3
    else
      -- 3-0 edge
      let side_index := topo.quad_edge_indices element_index 3
      let local_vs := cell.quad_vertex_indices element_index 3
      let global_vs := (topo.edge_vertex_indices side_index).1
      let index_in_side := wp_select (local_vs = global_vs) (ORDER - node_j) node_j - 1
      topo.vertex_count + (ORDER - 1) * side_index + index_in_side
  else if node_i = ORDER then
    if node_j = 0 then cell.quad_vertex_indices element_index 1
    else if node_j = ORDER then cell.quad_vertex_indices element_index 2
    else
      -- 1-2 edge
      let side_index := topo.quad_edge_indices element_index 1
      let local_vs := cell.quad_vertex_indices element_index 1
      let global_vs := (topo.edge_vertex_indices side_index).1
      let index_in_side := wp_select (local_vs = global_vs) node_j (ORDER - node_j) - 1
      topo.vertex_count + (ORDER - 1) * side_index + index_in_side
  else if node_j = 0 then
    -- 0-1 edge
    let side_index := topo.quad_edge_indices element_index 0
    let local_vs := cell.quad_vertex_indices element_index 0
    let global_vs := (topo.edge_vertex_indices side_index).1
    let index_in_side := wp_select (local_vs = global_vs) node_i (ORDER - node_i) - 1
    topo.vertex_count + (ORDER - 1) * side_index + index_in_side
  else if node_j = ORDER then
    -- 2-3 edge
    let side_index := topo.quad_edge_indices element_index 2
    let local_vs := cell.quad_vertex_indices element_index 2
    let global_vs := (topo.edge_vertex_indices side_index).1
    let index_in_side := wp_select (local_vs = global_vs) (ORDER - node_i) node_i - 1
    topo.vertex_count + (ORDER - 1) * side_index + index_in_side
  else
    topo.vertex_count + topo.edge_count * INTERIOR_NODES_PER_SIDE
      + element_index * INTERIOR_NODES_PER_CELL
      + (node_i - 1) * INTERIOR_NODES_PER_SIDE + node_j - 1

/-- `Quadmesh2DBipolynomialSpaceTopology.element_node_index`
(source lines 137-202). -/
def bipoly_element_node_index (ORDER : Nat) (cell : Quadmesh2DCellArg)
    (topo : Quadmesh2DTopologyArg) (element_index node_index_in_elt : Nat) : Nat :=
  let node_i := node_index_in_elt / (ORDER + 1)
  let node_j := node_index_in_elt - (ORDER + 1) * node_i
  bipoly_node_index_ij ORDER cell topo element_index node_i node_j

/-- `Quadmesh2DBipolynomialSpaceTopology.node_count` (source lines 120-129),
as a function of the order and the mesh counts. -/
def bipoly_node_count (ORDER V E C : Nat) : Nat :=
  let INTERIOR_NODES_PER_SIDE := max 0 (ORDER - 1)
  let INTERIOR_NODES_PER_CELL := INTERIOR_NODES_PER_SIDE ^ 2
  V + E * INTERIOR_NODES_PER_SIDE + C * INTERIOR_NODES_PER_CELL

/-- `Quadmesh2DSerendipitySpaceTopology.node_count` (source lines 213-214). -/
def serendipity_node_count (ORDER V E : Nat) : Nat :=
  V + (ORDER - 1) * E

/-- The node-type constants of `SquareSerendipityShapeFunctions`
(`VERTEX`, `EDGE_X`, `EDGE_Y`). -/
inductive SerendipityNodeType where
  | VERTEX
  | EDGE_X
  | EDGE_Y
deriving DecidableEq

/-- Modelled from the spec: `SquareSerendipityShapeFunctions.node_type_and_type_index`
(not under src/).  The serendipity element has `4 + 4*(ORDER-1)` local nodes:
the 4 vertices first, then the `EDGE_X` nodes, then the `EDGE_Y` nodes
(spec section 4.4: vertex nodes plus edge nodes only). -/
def node_type_and_type_index (ORDER n : Nat) : SerendipityNodeType × Nat :=
  if n < 4 then (SerendipityNodeType.VERTEX, n)
  else
    let m := n - 4
    if m < 2 * (ORDER - 1) then (SerendipityNodeType.EDGE_X, m)
    else (SerendipityNodeType.EDGE_Y, m - 2 * (ORDER - 1))

/-- Modelled from the spec: `SquareSerendipityShapeFunctions.side_offset_and_index`
(not under src/).  An edge-type index encodes a `(side_offset, index_in_side)`
pair, `side_offset ∈ {0, 1}` selecting the near or far side of the axis and
`index_in_side ∈ [0, ORDER-2]` the node position along the side measured in
the increasing tensor direction (spec section 4.4). -/
def side_offset_and_index (ORDER t : Nat) : Nat × Nat :=
  (t / (ORDER - 1), t % (ORDER - 1))

/-- The `SHAPE_TO_QUAD_IDX` constant (source line 219): remaps a shape-local
vertex index to the quad's local vertex ordering. -/
def SHAPE_TO_QUAD_IDX (t : Nat) : Nat :=
  [0, 3, 1, 2].getD t 0

/-- The edge-node branch of
`Quadmesh2DSerendipitySpaceTopology.element_node_index` (source lines
233-255), taking the already classified node type and the
`(side_offset, index_in_side)` pair. -/
def serendipity_edge_branch (ORDER : Nat) (cell : Quadmesh2DCellArg)
    (topo : Quadmesh2DTopologyArg) (element_index : Nat)
    (node_type : SerendipityNodeType) (side_offset index_in_side : Nat) : Nat :=
  let si :=
    if node_type = SerendipityNodeType.EDGE_X then
      if side_offset = 0 then (0, index_in_side)
      else (2, ORDER - 2 - index_in_side)
    else
      if side_offset = 0 then (3, ORDER - 2 - index_in_side)
      else (1, index_in_side)
  let side_start := si.1
  let index1 := si.2
  let side_index := topo.quad_edge_indices element_index side_start
  let local_vs := cell.quad_vertex_indices element_index side_start
  let global_vs := (topo.edge_vertex_indices side_index).1
  let index2 := if local_vs ≠ global_vs then ORDER - 2 - index1 else index1
  topo.vertex_count + (ORDER - 1) * side_index + index2

/-- `Quadmesh2DSerendipitySpaceTopology.element_node_index`
(source lines 222-257), with the external shape-function classification
modelled above. -/
def serendipity_element_node_index (ORDER : Nat) (cell : Quadmesh2DCellArg)
    (topo : Quadmesh2DTopologyArg) (element_index node_index_in_elt : Nat) : Nat :=
  let tt := node_type_and_type_index ORDER node_index_in_elt
  if tt.1 = SerendipityNodeType.VERTEX then
    cell.quad_vertex_indices element_index (SHAPE_TO_QUAD_IDX tt.2)
  else
    let oi := side_offset_and_index ORDER tt.2
    serendipity_edge_branch ORDER cell topo element_index tt.1 oi.1 oi.2

/-- The body of `topo_arg_value` (source lines 41-49): build the
`Quadmesh2DTopologyArg` for a device from the mesh and the precomputed
quad-edge table.  A device transfer (`.to(device)`) leaves contents
unchanged, so the built struct does not depend on the device id. -/
def topo_arg_build (m : Quadmesh2D) (quad_edge_indices : Nat → Nat → Nat)
    (_device : Nat) : Quadmesh2DTopologyArg :=
  { edge_vertex_indices := m.edge_vertex_indices
    quad_edge_indices := quad_edge_indices
    vertex_count := m.vertex_count
    edge_count := m.side_count }

/-- Modelled from the spec: one call through the `cache.cached_arg_value`
decorator (not under src/); spec section 4.5.  The per-device cache is an
association list from device id to the built struct; a hit returns the cached
struct, a miss builds, inserts and reports that a build fired (the `Bool`). -/
def cached_arg_call (build : Nat → Quadmesh2DTopologyArg)
    (entries : List (Nat × Quadmesh2DTopologyArg)) (device : Nat) :
    Quadmesh2DTopologyArg × List (Nat × Quadmesh2DTopologyArg) × Bool :=
  match entries.lookup device with
  | some v => (v, entries, false)
  | none => (build device, (device, build device) :: entries, true)

/-- Run a sequence of `topo_arg_value` calls, returning the final cache. -/
def cached_arg_run (build : Nat → Quadmesh2DTopologyArg)
    (entries : List (Nat × Quadmesh2DTopologyArg)) : List Nat →
    List (Nat × Quadmesh2DTopologyArg)
  | [] => entries
  | dev :: ds => cached_arg_run build (cached_arg_call build entries dev).2.1 ds

/-- Number of cache-miss builds for device `d` over a call sequence. -/
def cached_build_count (build : Nat → Quadmesh2DTopologyArg)
    (entries : List (Nat × Quadmesh2DTopologyArg)) (d : Nat) : List Nat → Nat
  | [] => 0
  | dev :: ds =>
      let r := cached_arg_call build entries dev
      (if dev = d ∧ r.2.2 = true then 1 else 0) + cached_build_count build r.2.1 d ds

/-- Modelled from the spec: a polynomial family descriptor;
`warp.fem.polynomial.is_closed` (not under src/) reports whether the family
supports continuous shared-DOF assembly (spec section 4.2). -/
structure PolynomialFamily where
  closed : Bool

/-- Modelled from the spec: `is_closed` (spec sections 4.2 and 7). -/
def is_closed (f : PolynomialFamily) : Bool :=
  f.closed

/-- Modelled from the spec: the concrete shape-function class supplied to the
variant dispatcher, as far as the dispatcher's `isinstance` checks observe it
(source lines 260-267). -/
inductive ShapeKind where
  | squareSerendipity
  | squareBipolynomial
  | other
deriving DecidableEq

/-- Modelled from the spec: the fields of a shape-function object read during
topology construction. -/
structure ShapeFunction where
  kind : ShapeKind
  family : PolynomialFamily
  ORDER : Nat

/-- A successfully built topology: the shape it was built for and the
quad-edge table computed by the Topology Builder. -/
structure BuiltTopology where
  shape : ShapeFunction
  quad_edge_indices : Nat → Nat → Nat

/-- A unit of device work scheduled during construction. -/
inductive DeviceWork where
  | quad_edge_table
deriving DecidableEq

/-- `Quadmesh2DSpaceTopology.__init__` (source lines 27-35): raise if the
polynomial family is not closed, otherwise build the quad-edge table.  The
result is paired with the list of device work performed, in order. -/
def quadmesh_space_topology_init (m : Quadmesh2D) (shape : ShapeFunction) :
    Except String BuiltTopology × List DeviceWork :=
  if is_closed shape.family then
    (Except.ok ⟨shape, compute_quad_edge_indices m⟩, [DeviceWork.quad_edge_table])
  else
    (Except.error "A closed polynomial family is required to define a continuous function space",
      [])

/-- `make_quadmesh_space_topology` (source lines 260-267): dispatch on the
shape class, raising for unsupported shapes. -/
def make_quadmesh_space_topology (m : Quadmesh2D) (shape : ShapeFunction) :
    Except String BuiltTopology × List DeviceWork :=
  match shape.kind with
  | ShapeKind.squareSerendipity => quadmesh_space_topology_init m shape
  | ShapeKind.squareBipolynomial => quadmesh_space_topology_init m shape
  | ShapeKind.other => (Except.error "Unsupported shape function", [])

/- Specification-side definitions used to state the claims. -/

/-- Slot `k`'s vertex pair of quad `q` equals `(v0, v1)` in either
orientation (claim language for the Topology Builder's matching test;
`k + 1` is not wrapped, matching the source's scan of slots 0,1,2). -/
def slot_matches (qv : Nat → Nat) (v0 v1 k : Nat) : Prop :=
  (qv k = v0 ∧ qv (k + 1) = v1) ∨ (qv k = v1 ∧ qv (k + 1) = v0)

/-- `k` is the smallest slot in `{0,1,2}` whose vertex pair matches
`(v0, v1)` in either orientation, or `3` when none matches. -/
def least_matching_slot (qv : Nat → Nat) (v0 v1 k : Nat) : Prop :=
  (k < 3 ∧ slot_matches qv v0 v1 k ∧ ∀ j < k, ¬ slot_matches qv v0 v1 j) ∨
  (k = 3 ∧ ∀ j < 3, ¬ slot_matches qv v0 v1 j)

/-- The second local vertex of edge slot `k` (cyclic successor). -/
def slot_second (k : Nat) : Nat :=
  (k + 1) % 4

/-- The section 4.1 self-consistency precondition on the mesh adjacency
arrays together with the quad-edge table: vertex and edge ids are in range,
each quad-edge slot geometrically joins the edge's two (distinct) canonical
vertices, and every vertex and every edge occurs in some quad. -/
def SelfConsistentMesh (cell : Quadmesh2DCellArg) (topo : Quadmesh2DTopologyArg)
    (C : Nat) : Prop :=
  (∀ q < C, ∀ k < 4, cell.quad_vertex_indices q k < topo.vertex_count) ∧
  (∀ q < C, ∀ k < 4, topo.quad_edge_indices q k < topo.edge_count) ∧
  (∀ q < C, ∀ k < 4,
    (cell.quad_vertex_indices q k = (topo.edge_vertex_indices (topo.quad_edge_indices q k)).1 ∧
     cell.quad_vertex_indices q (slot_second k) = (topo.edge_vertex_indices (topo.quad_edge_indices q k)).2) ∨
    (cell.quad_vertex_indices q k = (topo.edge_vertex_indices (topo.quad_edge_indices q k)).2 ∧
     cell.quad_vertex_indices q (slot_second k) = (topo.edge_vertex_indices (topo.quad_edge_indices q k)).1)) ∧
  (∀ e < topo.edge_count, (topo.edge_vertex_indices e).1 ≠ (topo.edge_vertex_indices e).2) ∧
  (∀ v < topo.vertex_count, ∃ q < C, ∃ k < 4, cell.quad_vertex_indices q k = v) ∧
  (∀ e < topo.edge_count, ∃ q < C, ∃ k < 4, topo.quad_edge_indices q k = e)

/-- The bipolynomial local node lying on edge slot `k` at traversal position
`p ∈ [0, ORDER]` measured from the slot's first local vertex, as a flat
`node_index_in_elt`. -/
def bipoly_node_on_slot (ORDER k p : Nat) : Nat :=
  match k with
  | 0 => p * (ORDER + 1)
  | 1 => ORDER * (ORDER + 1) + p
  | 2 => (ORDER - p) * (ORDER + 1) + ORDER
  | _ => ORDER - p

/-- The traversal position, measured from slot `k`'s first local vertex of
quad `q`, of the physical node at canonical position `t` along edge
`(v0, v1)`: `t` when the slot's first vertex is `v0`, mirrored otherwise. -/
def slot_pos (cell : Quadmesh2DCellArg) (ORDER q k v0 t : Nat) : Nat :=
  if cell.quad_vertex_indices q k = v0 then t else ORDER - t

/-- The global DOF index the bipolynomial topology assigns to the physical
node at canonical position `t ∈ [0, ORDER]` along edge `e` with canonical
vertices `(v0, v1)`. -/
def bipoly_canonical_dof (topo : Quadmesh2DTopologyArg) (ORDER e v0 v1 t : Nat) : Nat :=
  if t = 0 then v0
  else if t = ORDER then v1
  else topo.vertex_count + (ORDER - 1) * e + (ORDER - t - 1)

/-- The global DOF index the serendipity topology assigns to the physical
node at canonical position `t ∈ [0, ORDER]` along edge `e` with canonical
vertices `(v0, v1)`. -/
def serendipity_canonical_dof (topo : Quadmesh2DTopologyArg) (ORDER e v0 v1 t : Nat) : Nat :=
  if t = 0 then v0
  else if t = ORDER then v1
  else topo.vertex_count + (ORDER - 1) * e + (t - 1)

/-- Inverse of `SHAPE_TO_QUAD_IDX`: the shape-local vertex index of the
quad's local vertex `k`. -/
def QUAD_TO_SHAPE_IDX (k : Nat) : Nat :=
  [0, 2, 3, 1].getD k 0

/-- The serendipity local node lying on edge slot `k` at traversal position
`p ∈ [0, ORDER]` measured from the slot's first local vertex, as a flat
`node_index_in_elt` of the modelled serendipity enumeration. -/
def serendipity_node_on_slot (ORDER k p : Nat) : Nat :=
  if p = 0 then QUAD_TO_SHAPE_IDX k
  else if p = ORDER then QUAD_TO_SHAPE_IDX (slot_second k)
  else
    match k with
    | 0 => 4 + (p - 1)
    | 1 => 4 + 2 * (ORDER - 1) + (ORDER - 1) + (p - 1)
    | 2 => 4 + (ORDER - 1) + (ORDER - p - 1)
    | _ => 4 + 2 * (ORDER - 1) + (ORDER - p - 1)

/-- A physical DOF location: a mesh vertex, the node at canonical position
`t` on an edge, or a cell-interior node. -/
inductive PhysNode where
  | vertex (v : Nat)
  | edgeNode (e t : Nat)
  | interior (q a b : Nat)
deriving DecidableEq

/-- The canonical position on edge `(topo.quad_edge_indices q k)` of the
node at traversal position `p` from slot `k`'s first local vertex. -/
def canon_pos (ORDER : Nat) (cell : Quadmesh2DCellArg)
    (topo : Quadmesh2DTopologyArg) (q k p : Nat) : Nat :=
  if cell.quad_vertex_indices q k =
      (topo.edge_vertex_indices (topo.quad_edge_indices q k)).1
    then p else ORDER - p

/-- The physical node referred to by the bipolynomial local node with tensor
coordinates `(i, j)` of quad `q`: corners name their mesh vertex, edge nodes
name their edge and canonical position along it, interior nodes are private
to the cell. -/
def bipoly_phys_node_ij (ORDER : Nat) (cell : Quadmesh2DCellArg)
    (topo : Quadmesh2DTopologyArg) (q i j : Nat) : PhysNode :=
  if i = 0 then
    if j = 0 then PhysNode.vertex (cell.quad_vertex_indices q 0)
    else if j = ORDER then PhysNode.vertex (cell.quad_vertex_indices q 3)
    else PhysNode.edgeNode (topo.quad_edge_indices q 3)
      (canon_pos ORDER cell topo q 3 (ORDER - j))
  else if i = ORDER then
    if j = 0 then PhysNode.vertex (cell.quad_vertex_indices q 1)
    else if j = ORDER then PhysNode.vertex (cell.quad_vertex_indices q 2)
    else PhysNode.edgeNode (topo.quad_edge_indices q 1)
      (canon_pos ORDER cell topo q 1 j)
  else if j = 0 then PhysNode.edgeNode (topo.quad_edge_indices q 0)
    (canon_pos ORDER cell topo q 0 i)
  else if j = ORDER then PhysNode.edgeNode (topo.quad_edge_indices q 2)
    (canon_pos ORDER cell topo q 2 (ORDER - i))
  else PhysNode.interior q (i - 1) (j - 1)

/-- The physical node referred to by the bipolynomial local node
`(q, node_index_in_elt)`. -/
def bipoly_phys_node (ORDER : Nat) (cell : Quadmesh2DCellArg)
    (topo : Quadmesh2DTopologyArg) (q n : Nat) : PhysNode :=
  bipoly_phys_node_ij ORDER cell topo q (n / (ORDER + 1))
    (n - (ORDER + 1) * (n / (ORDER + 1)))

/-- The physical node referred to by the serendipity local node
`(q, node_index_in_elt)` in the modelled enumeration. -/
def serendipity_phys_node (ORDER : Nat) (cell : Quadmesh2DCellArg)
    (topo : Quadmesh2DTopologyArg) (q n : Nat) : PhysNode :=
  if n < 4 then PhysNode.vertex (cell.quad_vertex_indices q (SHAPE_TO_QUAD_IDX n))
  else
    let m := n - 4
    if m < ORDER - 1 then
      PhysNode.edgeNode (topo.quad_edge_indices q 0)
        (canon_pos ORDER cell topo q 0 (m + 1))
    else if m < 2 * (ORDER - 1) then
      PhysNode.edgeNode (topo.quad_edge_indices q 2)
        (canon_pos ORDER cell topo q 2 (ORDER - (m - (ORDER - 1)) - 1))
    else if m < 3 * (ORDER - 1) then
      PhysNode.edgeNode (topo.quad_edge_indices q 3)
        (canon_pos ORDER cell topo q 3 (ORDER - (m - 2 * (ORDER - 1)) - 1))
    else
      PhysNode.edgeNode (topo.quad_edge_indices q 1)
        (canon_pos ORDER cell topo q 1 (m - 3 * (ORDER - 1) + 1))

/-- The canonical DOF value of a physical node under the bipolynomial
numbering. -/
def bipoly_dof_value (ORDER : Nat) (topo : Quadmesh2DTopologyArg) : PhysNode → Nat
  | PhysNode.vertex v => v
  | PhysNode.edgeNode e t => topo.vertex_count + (ORDER - 1) * e + (ORDER - t - 1)
  | PhysNode.interior q a b =>
      topo.vertex_count + topo.edge_count * (ORDER - 1)
        + q * (ORDER - 1) ^ 2 + a * (ORDER - 1) + b

/-- The canonical DOF value of a physical node under the serendipity
numbering. -/
def serendipity_dof_value (ORDER : Nat) (topo : Quadmesh2DTopologyArg) : PhysNode → Nat
  | PhysNode.vertex v => v
  | PhysNode.edgeNode e t => topo.vertex_count + (ORDER - 1) * e + (t - 1)
  | PhysNode.interior _ _ _ => 0

/-- All global indices produced by the bipolynomial `element_node_index`
over every `(element, local node)` pair. -/
def bipoly_dof_image (ORDER : Nat) (cell : Quadmesh2DCellArg)
    (topo : Quadmesh2DTopologyArg) (C : Nat) : Finset Nat :=
  (Finset.range C ×ˢ Finset.range ((ORDER + 1) ^ 2)).image
    fun qn => bipoly_element_node_index ORDER cell topo qn.1 qn.2

/-- All global indices produced by the serendipity `element_node_index`
over every `(element, local node)` pair. -/
def serendipity_dof_image (ORDER : Nat) (cell : Quadmesh2DCellArg)
    (topo : Quadmesh2DTopologyArg) (C : Nat) : Finset Nat :=
  (Finset.range C ×ˢ Finset.range (4 + 4 * (ORDER - 1))).image
    fun qn => serendipity_element_node_index ORDER cell topo qn.1 qn.2

/-- The bipolynomial edge-node result exactly as claim C2 states it: a
1-based position along the slot measured from the slot's first local vertex,
mirrored as `ORDER - position` exactly when the slot's first local vertex
differs from the edge's canonical first vertex. -/
def c2_claimed_edge_index (ORDER : Nat) (cell : Quadmesh2DCellArg)
    (topo : Quadmesh2DTopologyArg) (q k p : Nat) : Nat :=
  let e := topo.quad_edge_indices q k
  let mirrored :=
    if cell.quad_vertex_indices q k = (topo.edge_vertex_indices e).1
      then p else ORDER - p
  topo.vertex_count + (ORDER - 1) * e + (mirrored - 1)

/-- The local edge slot holding the edge node with tensor coordinates
`(i, j)` (exactly one coordinate on the boundary). -/
def edge_slot_of (ORDER i j : Nat) : Nat :=
  if i = 0 then 3 else if i = ORDER then 1 else if j = 0 then 0 else 2

/-- The 1-based traversal position, measured from the slot's first local
vertex, of the edge node with tensor coordinates `(i, j)`. -/
def edge_pos_of (ORDER i j : Nat) : Nat :=
  if i = 0 then ORDER - j else if i = ORDER then j else if j = 0 then i else ORDER - i

/-- The return sites of the bipolynomial `element_node_index` body. -/
inductive BipolyBranch where
  | corner0
  | corner3
  | edge30
  | corner1
  | corner2
  | edge12
  | edge01
  | edge23
  | interior
deriving DecidableEq

/-- The path condition under which each return site of the bipolynomial
`element_node_index` body is reached, as a function of the tensor
coordinates `(i, j)`. -/
def bipoly_path (ORDER i j : Nat) : BipolyBranch → Prop
  | BipolyBranch.corner0 => i = 0 ∧ j = 0
  | BipolyBranch.corner3 => i = 0 ∧ j ≠ 0 ∧ j = ORDER
  | BipolyBranch.edge30 => i = 0 ∧ j ≠ 0 ∧ j ≠ ORDER
  | BipolyBranch.corner1 => i ≠ 0 ∧ i = ORDER ∧ j = 0
  | BipolyBranch.corner2 => i ≠ 0 ∧ i = ORDER ∧ j ≠ 0 ∧ j = ORDER
  | BipolyBranch.edge12 => i ≠ 0 ∧ i = ORDER ∧ j ≠ 0 ∧ j ≠ ORDER
  | BipolyBranch.edge01 => i ≠ 0 ∧ i ≠ ORDER ∧ j = 0
  | BipolyBranch.edge23 => i ≠ 0 ∧ i ≠ ORDER ∧ j ≠ 0 ∧ j = ORDER
  | BipolyBranch.interior => i ≠ 0 ∧ i ≠ ORDER ∧ j ≠ 0 ∧ j ≠ ORDER

/-- Whether a return site is one of the four corner returns. -/
def BipolyBranch.isCorner : BipolyBranch → Prop
  | BipolyBranch.corner0 => True
  | BipolyBranch.corner1 => True
  | BipolyBranch.corner2 => True
  | BipolyBranch.corner3 => True
  | _ => False

/-- The value returned at each return site of the bipolynomial
`element_node_index` body, as written in the source. -/
def bipoly_branch_value (ORDER : Nat) (cell : Quadmesh2DCellArg)
    (topo : Quadmesh2DTopologyArg) (q i j : Nat) : BipolyBranch → Nat
  | BipolyBranch.corner0 => cell.quad_vertex_indices q 0
  | BipolyBranch.corner3 => cell.quad_vertex_indices q 3
  | BipolyBranch.corner1 => cell.quad_vertex_indices q 1
  | BipolyBranch.corner2 => cell.quad_vertex_indices q 2
  | BipolyBranch.edge30 =>
      topo.vertex_count + (ORDER - 1) * topo.quad_edge_indices q 3 +
        (wp_select (cell.quad_vertex_indices q 3 =
          (topo.edge_vertex_indices (topo.quad_edge_indices q 3)).1)
          (ORDER - j) j - 1)
  | BipolyBranch.edge12 =>
      topo.vertex_count + (ORDER - 1) * topo.quad_edge_indices q 1 +
        (wp_select (cell.quad_vertex_indices q 1 =
          (topo.edge_vertex_indices (topo.quad_edge_indices q 1)).1)
          j (ORDER - j) - 1)
  | BipolyBranch.edge01 =>
      topo.vertex_count + (ORDER - 1) * topo.quad_edge_indices q 0 +
        (wp_select (cell.quad_vertex_indices q 0 =
          (topo.edge_vertex_indices (topo.quad_edge_indices q 0)).1)
          i (ORDER - i) - 1)
  | BipolyBranch.edge23 =>
      topo.vertex_count + (ORDER - 1) * topo.quad_edge_indices q 2 +
        (wp_select (cell.quad_vertex_indices q 2 =
          (topo.edge_vertex_indices (topo.quad_edge_indices q 2)).1)
          (ORDER - i) i - 1)
  | BipolyBranch.interior =>
      topo.vertex_count + topo.edge_count * max 0 (ORDER - 1)
        + q * (max 0 (ORDER - 1)) ^ 2 + (i - 1) * max 0 (ORDER - 1) + j - 1

/- Concrete 2x1 quad strip (spec section 8): vertices 0..5 at
(x, y) with ids 0=(0,0) 1=(1,0) 2=(2,0) 3=(0,1) 4=(1,1) 5=(2,1);
quads [0,1,4,3] and [1,2,5,4]; seven edges, e3=(1,4) interior. -/

/-- Quad vertex lists of the 2x1 strip mesh. -/
def strip_quad_vertex_indices : Nat → Nat → Nat := fun q k =>
  (([[0, 1, 4, 3], [1, 2, 5, 4]].getD q []).getD k 0)

/-- Canonical edge vertex pairs of the 2x1 strip mesh. -/
def strip_edge_vertex_indices : Nat → Nat × Nat := fun e =>
  ([(0, 1), (1, 2), (0, 3), (1, 4), (2, 5), (3, 4), (4, 5)].getD e (0, 0))

/-- Incident quad pairs of the 2x1 strip mesh (boundary sentinel repeats the
sole incident quad). -/
def strip_edge_quad_indices : Nat → Nat × Nat := fun e =>
  ([(0, 0), (1, 1), (0, 0), (0, 1), (1, 1), (0, 0), (1, 1)].getD e (0, 0))

/-- The quad-edge table of the 2x1 strip mesh. -/
def strip_quad_edge_indices : Nat → Nat → Nat := fun q k =>
  (([[0, 3, 5, 2], [1, 4, 6, 3]].getD q []).getD k 0)

/-- The cell argument of the 2x1 strip mesh. -/
def strip_cell : Quadmesh2DCellArg :=
  ⟨strip_quad_vertex_indices⟩

/-- The topology argument of the 2x1 strip mesh. -/
def strip_topo : Quadmesh2DTopologyArg :=
  ⟨strip_edge_vertex_indices, strip_quad_edge_indices, 6, 7⟩

/-- The 2x1 strip mesh as a geometry object. -/
def strip_mesh : Quadmesh2D :=
  { vertex_count := 6
    side_count := 7
    cell_count := 2
    quad_vertex_indices := strip_quad_vertex_indices
    edge_vertex_indices := strip_edge_vertex_indices
    edge_quad_indices := strip_edge_quad_indices }

/-- The section 4.1 precondition is decidable, so concrete meshes can be
checked by evaluation. -/
instance selfConsistentMeshDecidable (cell : Quadmesh2DCellArg)
    (topo : Quadmesh2DTopologyArg) (C : Nat) :
    Decidable (SelfConsistentMesh cell topo C) := by
  unfold SelfConsistentMesh
  infer_instance

/-- Validity of a physical node with respect to the mesh counts: vertex ids
below `V`, edge nodes on a real edge at an interior canonical position,
interior nodes of a real cell with in-range offsets. -/
def bipoly_phys_valid (ORDER V E C : Nat) : PhysNode → Prop
  | PhysNode.vertex v => v < V
  | PhysNode.edgeNode e t => e < E ∧ 1 ≤ t ∧ t ≤ ORDER - 1
  | PhysNode.interior q a b => q < C ∧ a < ORDER - 1 ∧ b < ORDER - 1

/-- Validity of a serendipity physical node: as for the bipolynomial case
but with no interior nodes. -/
def serendipity_phys_valid (ORDER V E : Nat) : PhysNode → Prop
  | PhysNode.vertex v => v < V
  | PhysNode.edgeNode e t => e < E ∧ 1 ≤ t ∧ t ≤ ORDER - 1
  | PhysNode.interior _ _ _ => False

/- Helper lemmas. -/

theorem bipoly_coord_bounds (P n : Nat) (hn : n < (P + 1) ^ 2) :
    n / (P + 1) ≤ P ∧ n - (P + 1) * (n / (P + 1)) ≤ P := by
  have h1 := Nat.div_add_mod n (P + 1)
  have h2 : n % (P + 1) < P + 1 := Nat.mod_lt _ (by omega)
  have h3 : n / (P + 1) < P + 1 := by
    apply Nat.div_lt_of_lt_mul
    calc n < (P + 1) ^ 2 := hn
    _ = (P + 1) * (P + 1) := by ring
  omega

theorem coord_sub_le (P n : Nat) : n - (P + 1) * (n / (P + 1)) ≤ P := by
  have h1 := Nat.div_add_mod n (P + 1)
  have h2 : n % (P + 1) < P + 1 := Nat.mod_lt _ (by omega)
  omega

theorem bipoly_element_node_index_ij_eq (P : Nat) (cell : Quadmesh2DCellArg)
    (topo : Quadmesh2DTopologyArg) (q i j : Nat) (hj : j ≤ P) :
    bipoly_element_node_index P cell topo q (i * (P + 1) + j) =
      bipoly_node_index_ij P cell topo q i j := by
  have hdiv : (i * (P + 1) + j) / (P + 1) = i := by
    rw [Nat.add_comm, Nat.mul_comm, Nat.add_mul_div_left _ _ (by omega : 0 < P + 1),
      Nat.div_eq_of_lt (by omega)]
    omega
  have hsub : i * (P + 1) + j - (P + 1) * ((i * (P + 1) + j) / (P + 1)) = j := by
    rw [hdiv, Nat.mul_comm (P + 1) i]; omega
  show bipoly_node_index_ij P cell topo q ((i * (P + 1) + j) / (P + 1))
    (i * (P + 1) + j - (P + 1) * ((i * (P + 1) + j) / (P + 1))) = _
  rw [hsub, hdiv]

theorem bipoly_phys_node_ij_eq (P : Nat) (cell : Quadmesh2DCellArg)
    (topo : Quadmesh2DTopologyArg) (q i j : Nat) (hj : j ≤ P) :
    bipoly_phys_node P cell topo q (i * (P + 1) + j) =
      bipoly_phys_node_ij P cell topo q i j := by
  have hdiv : (i * (P + 1) + j) / (P + 1) = i := by
    rw [Nat.add_comm, Nat.mul_comm, Nat.add_mul_div_left _ _ (by omega : 0 < P + 1),
      Nat.div_eq_of_lt (by omega)]
    omega
  have hsub : i * (P + 1) + j - (P + 1) * ((i * (P + 1) + j) / (P + 1)) = j := by
    rw [hdiv, Nat.mul_comm (P + 1) i]; omega
  unfold bipoly_phys_node
  rw [hsub, hdiv]

theorem ij_corner0 (P : Nat) (cell : Quadmesh2DCellArg) (topo : Quadmesh2DTopologyArg)
    (q : Nat) :
    bipoly_node_index_ij P cell topo q 0 0 = cell.quad_vertex_indices q 0 := by
  simp [bipoly_node_index_ij]

theorem ij_corner3 (P : Nat) (cell : Quadmesh2DCellArg) (topo : Quadmesh2DTopologyArg)
    (q : Nat) (hP : P ≠ 0) :
    bipoly_node_index_ij P cell topo q 0 P = cell.quad_vertex_indices q 3 := by
  simp [bipoly_node_index_ij, hP]

theorem ij_corner1 (P : Nat) (cell : Quadmesh2DCellArg) (topo : Quadmesh2DTopologyArg)
    (q : Nat) (hP : P ≠ 0) :
    bipoly_node_index_ij P cell topo q P 0 = cell.quad_vertex_indices q 1 := by
  simp [bipoly_node_index_ij, hP]

theorem ij_corner2 (P : Nat) (cell : Quadmesh2DCellArg) (topo : Quadmesh2DTopologyArg)
    (q : Nat) (hP : P ≠ 0) :
    bipoly_node_index_ij P cell topo q P P = cell.quad_vertex_indices q 2 := by
  simp [bipoly_node_index_ij, hP]

theorem ij_edge30 (P : Nat) (cell : Quadmesh2DCellArg) (topo : Quadmesh2DTopologyArg)
    (q j : Nat) (hj0 : j ≠ 0) (hjP : j ≠ P) :
    bipoly_node_index_ij P cell topo q 0 j =
      topo.vertex_count + (P - 1) * topo.quad_edge_indices q 3 +
        (wp_select (cell.quad_vertex_indices q 3 =
          (topo.edge_vertex_indices (topo.quad_edge_indices q 3)).1)
          (P - j) j - 1) := by
  simp [bipoly_node_index_ij, hj0, hjP]

theorem ij_edge12 (P : Nat) (cell : Quadmesh2DCellArg) (topo : Quadmesh2DTopologyArg)
    (q j : Nat) (hP : P ≠ 0) (hj0 : j ≠ 0) (hjP : j ≠ P) :
    bipoly_node_index_ij P cell topo q P j =
      topo.vertex_count + (P - 1) * topo.quad_edge_indices q 1 +
        (wp_select (cell.quad_vertex_indices q 1 =
          (topo.edge_vertex_indices (topo.quad_edge_indices q 1)).1)
          j (P - j) - 1) := by
  simp [bipoly_node_index_ij, hP, hj0, hjP]

theorem ij_edge01 (P : Nat) (cell : Quadmesh2DCellArg) (topo : Quadmesh2DTopologyArg)
    (q i : Nat) (hi0 : i ≠ 0) (hiP : i ≠ P) :
    bipoly_node_index_ij P cell topo q i 0 =
      topo.vertex_count + (P - 1) * topo.quad_edge_indices q 0 +
        (wp_select (cell.quad_vertex_indices q 0 =
          (topo.edge_vertex_indices (topo.quad_edge_indices q 0)).1)
          i (P - i) - 1) := by
  simp [bipoly_node_index_ij, hi0, hiP]

theorem ij_edge23 (P : Nat) (cell : Quadmesh2DCellArg) (topo : Quadmesh2DTopologyArg)
    (q i : Nat) (hi0 : i ≠ 0) (hiP : i ≠ P) (hP : P ≠ 0) :
    bipoly_node_index_ij P cell topo q i P =
      topo.vertex_count + (P - 1) * topo.quad_edge_indices q 2 +
        (wp_select (cell.quad_vertex_indices q 2 =
          (topo.edge_vertex_indices (topo.quad_edge_indices q 2)).1)
          (P - i) i - 1) := by
  simp [bipoly_node_index_ij, hi0, hiP, hP]

theorem ij_interior (P : Nat) (cell : Quadmesh2DCellArg) (topo : Quadmesh2DTopologyArg)
    (q i j : Nat) (hi0 : i ≠ 0) (hiP : i ≠ P) (hj0 : j ≠ 0) (hjP : j ≠ P) :
    bipoly_node_index_ij P cell topo q i j =
      topo.vertex_count + topo.edge_count * (P - 1) + q * (P - 1) ^ 2 +
        (i - 1) * (P - 1) + j - 1 := by
  simp [bipoly_node_index_ij, hi0, hiP, hj0, hjP, Nat.zero_max]

theorem slot_matches_iff (qv : Nat → Nat) (v0 v1 k : Nat) :
    slot_matches qv v0 v1 k ↔
      ((v0 = qv k ∧ v1 = qv (k + 1)) ∨ (v1 = qv k ∧ v0 = qv (k + 1))) := by
  unfold slot_matches
  constructor <;> rintro (⟨h1, h2⟩ | ⟨h1, h2⟩)
  · exact Or.inl ⟨h1.symm, h2.symm⟩
  · exact Or.inr ⟨h1.symm, h2.symm⟩
  · exact Or.inl ⟨h1.symm, h2.symm⟩
  · exact Or.inr ⟨h1.symm, h2.symm⟩

theorem find_edge_least (ev : Nat × Nat) (qv : Nat → Nat) :
    least_matching_slot qv ev.1 ev.2 (find_edge_index_in_quad ev qv) := by
  unfold find_edge_index_in_quad least_matching_slot
  split_ifs with h0 h1 h2
  · exact Or.inl ⟨by omega, (slot_matches_iff qv ev.1 ev.2 0).mpr h0,
      fun j hj => absurd hj (Nat.not_lt_zero j)⟩
  · refine Or.inl ⟨by omega, (slot_matches_iff qv ev.1 ev.2 1).mpr h1, ?_⟩
    intro j hj
    interval_cases j
    exact fun hc => h0 ((slot_matches_iff qv ev.1 ev.2 0).mp hc)
  · refine Or.inl ⟨by omega, (slot_matches_iff qv ev.1 ev.2 2).mpr h2, ?_⟩
    intro j hj
    interval_cases j
    · exact fun hc => h0 ((slot_matches_iff qv ev.1 ev.2 0).mp hc)
    · exact fun hc => h1 ((slot_matches_iff qv ev.1 ev.2 1).mp hc)
  · refine Or.inr ⟨rfl, ?_⟩
    intro j hj
    interval_cases j
    · exact fun hc => h0 ((slot_matches_iff qv ev.1 ev.2 0).mp hc)
    · exact fun hc => h1 ((slot_matches_iff qv ev.1 ev.2 1).mp hc)
    · exact fun hc => h2 ((slot_matches_iff qv ev.1 ev.2 2).mp hc)

/-- C3: for every mesh with `V` vertices, `E` edges, `C` quads and every
order `P ≥ 1`, the bipolynomial `node_count` returns
`V + E*(P-1) + C*(P-1)^2` and the serendipity `node_count` returns
`V + E*(P-1)`; in particular for `V=6, E=7, C=2, P=2` the bipolynomial
count is 15. -/
theorem C3_count_formulas (P V E C : Nat) (_hP : 1 ≤ P) :
    bipoly_node_count P V E C = V + E * (P - 1) + C * (P - 1) ^ 2 ∧
    serendipity_node_count P V E = V + E * (P - 1) ∧
    bipoly_node_count 2 6 7 2 = 15 := by
  refine ⟨?_, ?_, by decide⟩
  · simp [bipoly_node_count, Nat.zero_max]
  · simp [serendipity_node_count, Nat.mul_comm]

/-- Witness for C3 at `V=6, E=7, C=2, P=2`. -/
theorem C3_count_formulas_witness :
    1 ≤ 2 ∧
    (bipoly_node_count 2 6 7 2 = 6 + 7 * (2 - 1) + 2 * (2 - 1) ^ 2 ∧
     serendipity_node_count 2 6 7 = 6 + 7 * (2 - 1) ∧
     bipoly_node_count 2 6 7 2 = 15) :=
  ⟨by decide, C3_count_formulas 2 6 7 2 (by decide)⟩

/-- C4: for every edge `e` with vertices `(v0, v1)` and incident quads
`(q0, q1)`, the builder thread for `e` writes `e` into `q0`'s slot `k0`,
where `k0` is the smallest slot in `{0,1,2}` whose quad vertex pair
`(k, k+1)` equals `{v0, v1}` in either orientation, or 3 if none of the
first three slots match; it writes `e` into `q1`'s slot `k1` (determined
the same way) exactly when `q1 ≠ q0`, and performs no other writes. -/
theorem C4_builder_writes (m : Quadmesh2D) (e : Nat) :
    ∃ k0 k1,
      least_matching_slot (m.quad_vertex_indices (m.edge_quad_indices e).1)
        (m.edge_vertex_indices e).1 (m.edge_vertex_indices e).2 k0 ∧
      least_matching_slot (m.quad_vertex_indices (m.edge_quad_indices e).2)
        (m.edge_vertex_indices e).1 (m.edge_vertex_indices e).2 k1 ∧
      kernel_writes m e =
        (if (m.edge_quad_indices e).2 = (m.edge_quad_indices e).1 then
          [((m.edge_quad_indices e).1, k0, e)]
        else
          [((m.edge_quad_indices e).1, k0, e), ((m.edge_quad_indices e).2, k1, e)]) := by
  refine ⟨find_edge_index_in_quad (m.edge_vertex_indices e)
      (m.quad_vertex_indices (m.edge_quad_indices e).1),
    find_edge_index_in_quad (m.edge_vertex_indices e)
      (m.quad_vertex_indices (m.edge_quad_indices e).2),
    find_edge_least _ _, find_edge_least _ _, ?_⟩
  unfold kernel_writes
  by_cases h : (m.edge_quad_indices e).2 = (m.edge_quad_indices e).1 <;> simp [h]

/-- C6: construction of a `Quadmesh2DSpaceTopology` errors exactly when the
shape family is not closed; `make_quadmesh_space_topology` errors for every
shape that is neither serendipity nor bipolynomial; in both cases the error
precedes any quad-edge table construction or device work, leaving no
topology value behind. -/
theorem C6_configuration_errors (m : Quadmesh2D) (shape : ShapeFunction) :
    ((quadmesh_space_topology_init m shape).1.toOption.isSome = is_closed shape.family) ∧
    (is_closed shape.family = false → (quadmesh_space_topology_init m shape).2 = []) ∧
    (shape.kind = ShapeKind.other →
      (make_quadmesh_space_topology m shape).1.toOption.isSome = false ∧
      (make_quadmesh_space_topology m shape).2 = []) := by
  refine ⟨?_, ?_, ?_⟩
  · unfold quadmesh_space_topology_init
    cases hc : is_closed shape.family <;> simp [hc, Except.toOption]
  · intro h
    unfold quadmesh_space_topology_init
    simp [h]
  · intro h
    unfold make_quadmesh_space_topology
    rw [h]
    simp [Except.toOption]

/-- Witness for C6 at a non-closed, non-square shape on the strip mesh. -/
theorem C6_configuration_errors_witness :
    ((quadmesh_space_topology_init strip_mesh ⟨ShapeKind.other, ⟨false⟩, 1⟩).1.toOption.isSome
        = is_closed (⟨false⟩ : PolynomialFamily)) ∧
    (quadmesh_space_topology_init strip_mesh ⟨ShapeKind.other, ⟨false⟩, 1⟩).2 = [] ∧
    ((make_quadmesh_space_topology strip_mesh ⟨ShapeKind.other, ⟨false⟩, 1⟩).1.toOption.isSome
        = false ∧
      (make_quadmesh_space_topology strip_mesh ⟨ShapeKind.other, ⟨false⟩, 1⟩).2 = []) := by
  have h := C6_configuration_errors strip_mesh ⟨ShapeKind.other, ⟨false⟩, 1⟩
  exact ⟨h.1, h.2.1 rfl, h.2.2 rfl⟩

theorem bipoly_slot0_dof (P : Nat) (cell : Quadmesh2DCellArg) (topo : Quadmesh2DTopologyArg)
    (q e v0 v1 t : Nat) (hP : 1 ≤ P)
    (he : topo.quad_edge_indices q 0 = e)
    (hev : topo.edge_vertex_indices e = (v0, v1)) (hne : v0 ≠ v1)
    (hmatch : (cell.quad_vertex_indices q 0 = v0 ∧ cell.quad_vertex_indices q 1 = v1) ∨
              (cell.quad_vertex_indices q 0 = v1 ∧ cell.quad_vertex_indices q 1 = v0))
    (ht : t ≤ P) :
    bipoly_element_node_index P cell topo q
        (bipoly_node_on_slot P 0 (slot_pos cell P q 0 v0 t)) =
      bipoly_canonical_dof topo P e v0 v1 t := by
  have hnode : ∀ p, bipoly_node_on_slot P 0 p = p * (P + 1) + 0 := by
    intro p; simp [bipoly_node_on_slot]
  rcases hmatch with ⟨ha, hb⟩ | ⟨ha, hb⟩
  · rw [show slot_pos cell P q 0 v0 t = t from by simp [slot_pos, ha]]
    by_cases ht0 : t = 0
    · subst ht0
      rw [hnode, bipoly_element_node_index_ij_eq P cell topo q 0 0 (by omega), ij_corner0]
      simp [bipoly_canonical_dof, ha]
    · by_cases htP : t = P
      · rw [htP, hnode, bipoly_element_node_index_ij_eq P cell topo q P 0 (by omega),
          ij_corner1 P cell topo q (by omega)]
        have hP0 : ¬ (P = 0) := by omega
        simp [bipoly_canonical_dof, hP0, hb]
      · rw [hnode, bipoly_element_node_index_ij_eq P cell topo q t 0 (by omega),
          ij_edge01 P cell topo q t ht0 htP, he, hev]
        simp [bipoly_canonical_dof, ht0, htP, wp_select, ha]
  · have hor : ¬ (cell.quad_vertex_indices q 0 = v0) := by
      rw [ha]; exact fun hc => hne hc.symm
    rw [show slot_pos cell P q 0 v0 t = P - t from by simp [slot_pos, hor]]
    by_cases ht0 : t = 0
    · subst ht0
      rw [Nat.sub_zero, hnode, bipoly_element_node_index_ij_eq P cell topo q P 0 (by omega),
        ij_corner1 P cell topo q (by omega)]
      simp [bipoly_canonical_dof, hb]
    · by_cases htP : t = P
      · rw [htP, Nat.sub_self, hnode,
          bipoly_element_node_index_ij_eq P cell topo q 0 0 (by omega), ij_corner0]
        have hP0 : ¬ (P = 0) := by omega
        simp [bipoly_canonical_dof, hP0, ha]
      · rw [hnode, bipoly_element_node_index_ij_eq P cell topo q (P - t) 0 (by omega),
          ij_edge01 P cell topo q (P - t) (by omega) (by omega), he, hev]
        simp [bipoly_canonical_dof, ht0, htP, wp_select, hor]

theorem bipoly_slot1_dof (P : Nat) (cell : Quadmesh2DCellArg) (topo : Quadmesh2DTopologyArg)
    (q e v0 v1 t : Nat) (hP : 1 ≤ P)
    (he : topo.quad_edge_indices q 1 = e)
    (hev : topo.edge_vertex_indices e = (v0, v1)) (hne : v0 ≠ v1)
    (hmatch : (cell.quad_vertex_indices q 1 = v0 ∧ cell.quad_vertex_indices q 2 = v1) ∨
              (cell.quad_vertex_indices q 1 = v1 ∧ cell.quad_vertex_indices q 2 = v0))
    (ht : t ≤ P) :
    bipoly_element_node_index P cell topo q
        (bipoly_node_on_slot P 1 (slot_pos cell P q 1 v0 t)) =
      bipoly_canonical_dof topo P e v0 v1 t := by
  have hnode : ∀ p, bipoly_node_on_slot P 1 p = P * (P + 1) + p := by
    intro p; simp [bipoly_node_on_slot]
  rcases hmatch with ⟨ha, hb⟩ | ⟨ha, hb⟩
  · rw [show slot_pos cell P q 1 v0 t = t from by simp [slot_pos, ha]]
    by_cases ht0 : t = 0
    · subst ht0
      rw [hnode, bipoly_element_node_index_ij_eq P cell topo q P 0 (by omega),
        ij_corner1 P cell topo q (by omega)]
      simp [bipoly_canonical_dof, ha]
    · by_cases htP : t = P
      · rw [htP, hnode, bipoly_element_node_index_ij_eq P cell topo q P P (by omega),
          ij_corner2 P cell topo q (by omega)]
        have hP0 : ¬ (P = 0) := by omega
        simp [bipoly_canonical_dof, hP0, hb]
      · rw [hnode, bipoly_element_node_index_ij_eq P cell topo q P t (by omega),
          ij_edge12 P cell topo q t (by omega) ht0 htP, he, hev]
        simp [bipoly_canonical_dof, ht0, htP, wp_select, ha]
  · have hor : ¬ (cell.quad_vertex_indices q 1 = v0) := by
      rw [ha]; exact fun hc => hne hc.symm
    rw [show slot_pos cell P q 1 v0 t = P - t from by simp [slot_pos, hor]]
    by_cases ht0 : t = 0
    · subst ht0
      rw [Nat.sub_zero, hnode, bipoly_element_node_index_ij_eq P cell topo q P P (by omega),
        ij_corner2 P cell topo q (by omega)]
      simp [bipoly_canonical_dof, hb]
    · by_cases htP : t = P
      · rw [htP, Nat.sub_self, hnode,
          bipoly_element_node_index_ij_eq P cell topo q P 0 (by omega),
          ij_corner1 P cell topo q (by omega)]
        have hP0 : ¬ (P = 0) := by omega
        simp [bipoly_canonical_dof, hP0, ha]
      · rw [hnode, bipoly_element_node_index_ij_eq P cell topo q P (P - t) (by omega),
          ij_edge12 P cell topo q (P - t) (by omega) (by omega) (by omega), he, hev]
        have : P - (P - t) = t := by omega
        simp [bipoly_canonical_dof, ht0, htP, wp_select, hor, this]

theorem bipoly_slot2_dof (P : Nat) (cell : Quadmesh2DCellArg) (topo : Quadmesh2DTopologyArg)
    (q e v0 v1 t : Nat) (hP : 1 ≤ P)
    (he : topo.quad_edge_indices q 2 = e)
    (hev : topo.edge_vertex_indices e = (v0, v1)) (hne : v0 ≠ v1)
    (hmatch : (cell.quad_vertex_indices q 2 = v0 ∧ cell.quad_vertex_indices q 3 = v1) ∨
              (cell.quad_vertex_indices q 2 = v1 ∧ cell.quad_vertex_indices q 3 = v0))
    (ht : t ≤ P) :
    bipoly_element_node_index P cell topo q
        (bipoly_node_on_slot P 2 (slot_pos cell P q 2 v0 t)) =
      bipoly_canonical_dof topo P e v0 v1 t := by
  have hnode : ∀ p, bipoly_node_on_slot P 2 p = (P - p) * (P + 1) + P := by
    intro p; simp [bipoly_node_on_slot]
  have hP0 : ¬ (P = 0) := by omega
  rcases hmatch with ⟨ha, hb⟩ | ⟨ha, hb⟩
  · rw [show slot_pos cell P q 2 v0 t = t from by simp [slot_pos, ha]]
    by_cases ht0 : t = 0
    · subst ht0
      rw [hnode, Nat.sub_zero, bipoly_element_node_index_ij_eq P cell topo q P P (by omega),
        ij_corner2 P cell topo q hP0]
      simp [bipoly_canonical_dof, ha]
    · by_cases htP : t = P
      · rw [htP, hnode, Nat.sub_self,
          bipoly_element_node_index_ij_eq P cell topo q 0 P (by omega),
          ij_corner3 P cell topo q hP0]
        simp [bipoly_canonical_dof, hP0, hb]
      · rw [hnode, bipoly_element_node_index_ij_eq P cell topo q (P - t) P (by omega),
          ij_edge23 P cell topo q (P - t) (by omega) (by omega) hP0, he, hev]
        simp [bipoly_canonical_dof, ht0, htP, wp_select, ha]
  · have hor : ¬ (cell.quad_vertex_indices q 2 = v0) := by
      rw [ha]; exact fun hc => hne hc.symm
    rw [show slot_pos cell P q 2 v0 t = P - t from by simp [slot_pos, hor]]
    by_cases ht0 : t = 0
    · subst ht0
      rw [Nat.sub_zero, hnode, Nat.sub_self,
        bipoly_element_node_index_ij_eq P cell topo q 0 P (by omega),
        ij_corner3 P cell topo q hP0]
      simp [bipoly_canonical_dof, hb]
    · by_cases htP : t = P
      · rw [htP, Nat.sub_self, hnode, Nat.sub_zero,
          bipoly_element_node_index_ij_eq P cell topo q P P (by omega),
          ij_corner2 P cell topo q hP0]
        simp [bipoly_canonical_dof, hP0, ha]
      · have hPPt : P - (P - t) = t := by omega
        rw [hnode, hPPt, bipoly_element_node_index_ij_eq P cell topo q t P (by omega),
          ij_edge23 P cell topo q t ht0 htP hP0, he, hev]
        simp [bipoly_canonical_dof, ht0, htP, wp_select, hor]

theorem bipoly_slot3_dof (P : Nat) (cell : Quadmesh2DCellArg) (topo : Quadmesh2DTopologyArg)
    (q e v0 v1 t : Nat) (hP : 1 ≤ P)
    (he : topo.quad_edge_indices q 3 = e)
    (hev : topo.edge_vertex_indices e = (v0, v1)) (hne : v0 ≠ v1)
    (hmatch : (cell.quad_vertex_indices q 3 = v0 ∧ cell.quad_vertex_indices q 0 = v1) ∨
              (cell.quad_vertex_indices q 3 = v1 ∧ cell.quad_vertex_indices q 0 = v0))
    (ht : t ≤ P) :
    bipoly_element_node_index P cell topo q
        (bipoly_node_on_slot P 3 (slot_pos cell P q 3 v0 t)) =
      bipoly_canonical_dof topo P e v0 v1 t := by
  have hnode : ∀ p, bipoly_node_on_slot P 3 p = 0 * (P + 1) + (P - p) := by
    intro p; simp [bipoly_node_on_slot]
  have hP0 : ¬ (P = 0) := by omega
  rcases hmatch with ⟨ha, hb⟩ | ⟨ha, hb⟩
  · rw [show slot_pos cell P q 3 v0 t = t from by simp [slot_pos, ha]]
    by_cases ht0 : t = 0
    · subst ht0
      rw [hnode, Nat.sub_zero, bipoly_element_node_index_ij_eq P cell topo q 0 P (by omega),
        ij_corner3 P cell topo q hP0]
      simp [bipoly_canonical_dof, ha]
    · by_cases htP : t = P
      · rw [htP, hnode, Nat.sub_self,
          bipoly_element_node_index_ij_eq P cell topo q 0 0 (by omega), ij_corner0]
        simp [bipoly_canonical_dof, hP0, hb]
      · rw [hnode, bipoly_element_node_index_ij_eq P cell topo q 0 (P - t) (by omega),
          ij_edge30 P cell topo q (P - t) (by omega) (by omega), he, hev]
        simp [bipoly_canonical_dof, ht0, htP, wp_select, ha]
  · have hor : ¬ (cell.quad_vertex_indices q 3 = v0) := by
      rw [ha]; exact fun hc => hne hc.symm
    rw [show slot_pos cell P q 3 v0 t = P - t from by simp [slot_pos, hor]]
    by_cases ht0 : t = 0
    · subst ht0
      rw [Nat.sub_zero, hnode, Nat.sub_self,
        bipoly_element_node_index_ij_eq P cell topo q 0 0 (by omega), ij_corner0]
      simp [bipoly_canonical_dof, hb]
    · by_cases htP : t = P
      · rw [htP, Nat.sub_self, hnode, Nat.sub_zero,
          bipoly_element_node_index_ij_eq P cell topo q 0 P (by omega),
          ij_corner3 P cell topo q hP0]
        simp [bipoly_canonical_dof, hP0, ha]
      · have hPPt : P - (P - t) = t := by omega
        rw [hnode, hPPt, bipoly_element_node_index_ij_eq P cell topo q 0 t (by omega),
          ij_edge30 P cell topo q t ht0 htP, he, hev]
        simp [bipoly_canonical_dof, ht0, htP, wp_select, hor]

theorem q2s_vals :
    QUAD_TO_SHAPE_IDX 0 = 0 ∧ QUAD_TO_SHAPE_IDX 1 = 2 ∧
    QUAD_TO_SHAPE_IDX 2 = 3 ∧ QUAD_TO_SHAPE_IDX 3 = 1 := by
  decide

theorem serendipity_vertex_eval (P : Nat) (cell : Quadmesh2DCellArg)
    (topo : Quadmesh2DTopologyArg) (q n : Nat) (hn : n < 4) :
    serendipity_element_node_index P cell topo q n =
      cell.quad_vertex_indices q (SHAPE_TO_QUAD_IDX n) := by
  unfold serendipity_element_node_index node_type_and_type_index
  simp [hn]

theorem serendipity_corner_eval (P : Nat) (cell : Quadmesh2DCellArg)
    (topo : Quadmesh2DTopologyArg) (q k : Nat) (hk : k < 4) :
    serendipity_element_node_index P cell topo q (QUAD_TO_SHAPE_IDX k) =
      cell.quad_vertex_indices q k := by
  interval_cases k
  · rw [q2s_vals.1, serendipity_vertex_eval P cell topo q 0 (by omega)]
    norm_num [SHAPE_TO_QUAD_IDX]
  · rw [q2s_vals.2.1, serendipity_vertex_eval P cell topo q 2 (by omega)]
    norm_num [SHAPE_TO_QUAD_IDX]
  · rw [q2s_vals.2.2.1, serendipity_vertex_eval P cell topo q 3 (by omega)]
    norm_num [SHAPE_TO_QUAD_IDX]
  · rw [q2s_vals.2.2.2, serendipity_vertex_eval P cell topo q 1 (by omega)]
    norm_num [SHAPE_TO_QUAD_IDX]

theorem classifier_slot0 (P p : Nat) (h1 : 1 ≤ p) (h2 : p < P) :
    node_type_and_type_index P (4 + (p - 1)) = (SerendipityNodeType.EDGE_X, p - 1) := by
  simp only [node_type_and_type_index]
  rw [if_neg (by omega : ¬ (4 + (p - 1) < 4)),
    if_pos (by omega : 4 + (p - 1) - 4 < 2 * (P - 1))]
  simp only [Prod.mk.injEq]
  exact ⟨trivial, by omega⟩

theorem classifier_slot2 (P p : Nat) (h1 : 1 ≤ p) (h2 : p < P) :
    node_type_and_type_index P (4 + (P - 1) + (P - p - 1)) =
      (SerendipityNodeType.EDGE_X, (P - 1) + (P - p - 1)) := by
  simp only [node_type_and_type_index]
  rw [if_neg (by omega : ¬ (4 + (P - 1) + (P - p - 1) < 4)),
    if_pos (by omega : 4 + (P - 1) + (P - p - 1) - 4 < 2 * (P - 1))]
  simp only [Prod.mk.injEq]
  exact ⟨trivial, by omega⟩

theorem classifier_slot3 (P p : Nat) (_h1 : 1 ≤ p) (_h2 : p < P) :
    node_type_and_type_index P (4 + 2 * (P - 1) + (P - p - 1)) =
      (SerendipityNodeType.EDGE_Y, P - p - 1) := by
  simp only [node_type_and_type_index]
  rw [if_neg (by omega : ¬ (4 + 2 * (P - 1) + (P - p - 1) < 4)),
    if_neg (by omega : ¬ (4 + 2 * (P - 1) + (P - p - 1) - 4 < 2 * (P - 1)))]
  simp only [Prod.mk.injEq]
  exact ⟨trivial, by omega⟩

theorem classifier_slot1 (P p : Nat) (_h1 : 1 ≤ p) (_h2 : p < P) :
    node_type_and_type_index P (4 + 2 * (P - 1) + (P - 1) + (p - 1)) =
      (SerendipityNodeType.EDGE_Y, (P - 1) + (p - 1)) := by
  simp only [node_type_and_type_index]
  rw [if_neg (by omega : ¬ (4 + 2 * (P - 1) + (P - 1) + (p - 1) < 4)),
    if_neg (by omega : ¬ (4 + 2 * (P - 1) + (P - 1) + (p - 1) - 4 < 2 * (P - 1)))]
  simp only [Prod.mk.injEq]
  exact ⟨trivial, by omega⟩

theorem side_offset_near (P r : Nat) (hr : r < P - 1) :
    side_offset_and_index P r = (0, r) := by
  unfold side_offset_and_index
  rw [Nat.div_eq_of_lt hr, Nat.mod_eq_of_lt hr]

theorem side_offset_far (P r : Nat) (hr : r < P - 1) :
    side_offset_and_index P ((P - 1) + r) = (1, r) := by
  unfold side_offset_and_index
  rw [Nat.add_comm (P - 1) r, Nat.add_div_right r (by omega : 0 < P - 1),
    Nat.div_eq_of_lt hr, Nat.add_mod_right, Nat.mod_eq_of_lt hr]

theorem serendipity_slot0_dof (P : Nat) (cell : Quadmesh2DCellArg)
    (topo : Quadmesh2DTopologyArg) (q e v0 v1 t : Nat) (hP : 1 ≤ P)
    (he : topo.quad_edge_indices q 0 = e)
    (hev : topo.edge_vertex_indices e = (v0, v1)) (hne : v0 ≠ v1)
    (hmatch : (cell.quad_vertex_indices q 0 = v0 ∧ cell.quad_vertex_indices q 1 = v1) ∨
              (cell.quad_vertex_indices q 0 = v1 ∧ cell.quad_vertex_indices q 1 = v0))
    (ht : t ≤ P) :
    serendipity_element_node_index P cell topo q
        (serendipity_node_on_slot P 0 (slot_pos cell P q 0 v0 t)) =
      serendipity_canonical_dof topo P e v0 v1 t := by
  have hP0 : ¬ (P = 0) := by omega
  rcases hmatch with ⟨ha, hb⟩ | ⟨ha, hb⟩
  · rw [show slot_pos cell P q 0 v0 t = t from by simp [slot_pos, ha]]
    by_cases ht0 : t = 0
    · subst ht0
      rw [show serendipity_node_on_slot P 0 0 = QUAD_TO_SHAPE_IDX 0 from by
          simp [serendipity_node_on_slot],
        serendipity_corner_eval P cell topo q 0 (by omega)]
      simp [serendipity_canonical_dof, ha]
    · by_cases htP : t = P
      · rw [htP, show serendipity_node_on_slot P 0 P = QUAD_TO_SHAPE_IDX 1 from by
            simp [serendipity_node_on_slot, slot_second, hP0],
          serendipity_corner_eval P cell topo q 1 (by omega)]
        simp [serendipity_canonical_dof, hP0, hb]
      · rw [show serendipity_node_on_slot P 0 t = 4 + (t - 1) from by
          simp [serendipity_node_on_slot, ht0, htP]]
        simp only [serendipity_element_node_index]
        rw [classifier_slot0 P t (by omega) (by omega),
          side_offset_near P (t - 1) (by omega)]
        simp [serendipity_edge_branch, he, hev, ha, serendipity_canonical_dof, ht0, htP]
  · have hor : ¬ (cell.quad_vertex_indices q 0 = v0) := by
      rw [ha]; exact fun hc => hne hc.symm
    rw [show slot_pos cell P q 0 v0 t = P - t from by simp [slot_pos, hor]]
    by_cases ht0 : t = 0
    · subst ht0
      rw [Nat.sub_zero, show serendipity_node_on_slot P 0 P = QUAD_TO_SHAPE_IDX 1 from by
          simp [serendipity_node_on_slot, slot_second, hP0],
        serendipity_corner_eval P cell topo q 1 (by omega)]
      simp [serendipity_canonical_dof, hb]
    · by_cases htP : t = P
      · rw [htP, Nat.sub_self,
          show serendipity_node_on_slot P 0 0 = QUAD_TO_SHAPE_IDX 0 from by
            simp [serendipity_node_on_slot],
          serendipity_corner_eval P cell topo q 0 (by omega)]
        simp [serendipity_canonical_dof, hP0, ha]
      · have hp1 : ¬ (P - t = 0) := by omega
        have hp2 : ¬ (P - t = P) := by omega
        rw [show serendipity_node_on_slot P 0 (P - t) = 4 + (P - t - 1) from by
          simp [serendipity_node_on_slot, hp1, hp2]]
        simp only [serendipity_element_node_index]
        rw [classifier_slot0 P (P - t) (by omega) (by omega),
          side_offset_near P (P - t - 1) (by omega)]
        have harith : P - 2 - (P - t - 1) = t - 1 := by omega
        simp [serendipity_edge_branch, he, hev, hor, serendipity_canonical_dof, ht0, htP, harith]

theorem serendipity_slot1_dof (P : Nat) (cell : Quadmesh2DCellArg)
    (topo : Quadmesh2DTopologyArg) (q e v0 v1 t : Nat) (hP : 1 ≤ P)
    (he : topo.quad_edge_indices q 1 = e)
    (hev : topo.edge_vertex_indices e = (v0, v1)) (hne : v0 ≠ v1)
    (hmatch : (cell.quad_vertex_indices q 1 = v0 ∧ cell.quad_vertex_indices q 2 = v1) ∨
              (cell.quad_vertex_indices q 1 = v1 ∧ cell.quad_vertex_indices q 2 = v0))
    (ht : t ≤ P) :
    serendipity_element_node_index P cell topo q
        (serendipity_node_on_slot P 1 (slot_pos cell P q 1 v0 t)) =
      serendipity_canonical_dof topo P e v0 v1 t := by
  have hP0 : ¬ (P = 0) := by omega
  rcases hmatch with ⟨ha, hb⟩ | ⟨ha, hb⟩
  · rw [show slot_pos cell P q 1 v0 t = t from by simp [slot_pos, ha]]
    by_cases ht0 : t = 0
    · subst ht0
      rw [show serendipity_node_on_slot P 1 0 = QUAD_TO_SHAPE_IDX 1 from by
          simp [serendipity_node_on_slot],
        serendipity_corner_eval P cell topo q 1 (by omega)]
      simp [serendipity_canonical_dof, ha]
    · by_cases htP : t = P
      · rw [htP, show serendipity_node_on_slot P 1 P = QUAD_TO_SHAPE_IDX 2 from by
            simp [serendipity_node_on_slot, slot_second, hP0],
          serendipity_corner_eval P cell topo q 2 (by omega)]
        simp [serendipity_canonical_dof, hP0, hb]
      · rw [show serendipity_node_on_slot P 1 t = 4 + 2 * (P - 1) + (P - 1) + (t - 1) from by
          simp [serendipity_node_on_slot, ht0, htP]]
        simp only [serendipity_element_node_index]
        rw [classifier_slot1 P t (by omega) (by omega),
          side_offset_far P (t - 1) (by omega)]
        simp [serendipity_edge_branch, he, hev, ha, serendipity_canonical_dof, ht0, htP]
  · have hor : ¬ (cell.quad_vertex_indices q 1 = v0) := by
      rw [ha]; exact fun hc => hne hc.symm
    rw [show slot_pos cell P q 1 v0 t = P - t from by simp [slot_pos, hor]]
    by_cases ht0 : t = 0
    · subst ht0
      rw [Nat.sub_zero, show serendipity_node_on_slot P 1 P = QUAD_TO_SHAPE_IDX 2 from by
          simp [serendipity_node_on_slot, slot_second, hP0],
        serendipity_corner_eval P cell topo q 2 (by omega)]
      simp [serendipity_canonical_dof, hb]
    · by_cases htP : t = P
      · rw [htP, Nat.sub_self,
          show serendipity_node_on_slot P 1 0 = QUAD_TO_SHAPE_IDX 1 from by
            simp [serendipity_node_on_slot],
          serendipity_corner_eval P cell topo q 1 (by omega)]
        simp [serendipity_canonical_dof, hP0, ha]
      · have hp1 : ¬ (P - t = 0) := by omega
        have hp2 : ¬ (P - t = P) := by omega
        rw [show serendipity_node_on_slot P 1 (P - t)
              = 4 + 2 * (P - 1) + (P - 1) + (P - t - 1) from by
          simp [serendipity_node_on_slot, hp1, hp2]]
        simp only [serendipity_element_node_index]
        rw [classifier_slot1 P (P - t) (by omega) (by omega),
          side_offset_far P (P - t - 1) (by omega)]
        have harith : P - 2 - (P - t - 1) = t - 1 := by omega
        simp [serendipity_edge_branch, he, hev, hor, serendipity_canonical_dof, ht0, htP, harith]

theorem serendipity_slot2_dof (P : Nat) (cell : Quadmesh2DCellArg)
    (topo : Quadmesh2DTopologyArg) (q e v0 v1 t : Nat) (hP : 1 ≤ P)
    (he : topo.quad_edge_indices q 2 = e)
    (hev : topo.edge_vertex_indices e = (v0, v1)) (hne : v0 ≠ v1)
    (hmatch : (cell.quad_vertex_indices q 2 = v0 ∧ cell.quad_vertex_indices q 3 = v1) ∨
              (cell.quad_vertex_indices q 2 = v1 ∧ cell.quad_vertex_indices q 3 = v0))
    (ht : t ≤ P) :
    serendipity_element_node_index P cell topo q
        (serendipity_node_on_slot P 2 (slot_pos cell P q 2 v0 t)) =
      serendipity_canonical_dof topo P e v0 v1 t := by
  have hP0 : ¬ (P = 0) := by omega
  rcases hmatch with ⟨ha, hb⟩ | ⟨ha, hb⟩
  · rw [show slot_pos cell P q 2 v0 t = t from by simp [slot_pos, ha]]
    by_cases ht0 : t = 0
    · subst ht0
      rw [show serendipity_node_on_slot P 2 0 = QUAD_TO_SHAPE_IDX 2 from by
          simp [serendipity_node_on_slot],
        serendipity_corner_eval P cell topo q 2 (by omega)]
      simp [serendipity_canonical_dof, ha]
    · by_cases htP : t = P
      · rw [htP, show serendipity_node_on_slot P 2 P = QUAD_TO_SHAPE_IDX 3 from by
            simp [serendipity_node_on_slot, slot_second, hP0],
          serendipity_corner_eval P cell topo q 3 (by omega)]
        simp [serendipity_canonical_dof, hP0, hb]
      · rw [show serendipity_node_on_slot P 2 t = 4 + (P - 1) + (P - t - 1) from by
          simp [serendipity_node_on_slot, ht0, htP]]
        simp only [serendipity_element_node_index]
        rw [classifier_slot2 P t (by omega) (by omega),
          side_offset_far P (P - t - 1) (by omega)]
        have harith : P - 2 - (P - t - 1) = t - 1 := by omega
        simp [serendipity_edge_branch, he, hev, ha, serendipity_canonical_dof, ht0, htP, harith]
  · have hor : ¬ (cell.quad_vertex_indices q 2 = v0) := by
      rw [ha]; exact fun hc => hne hc.symm
    rw [show slot_pos cell P q 2 v0 t = P - t from by simp [slot_pos, hor]]
    by_cases ht0 : t = 0
    · subst ht0
      rw [Nat.sub_zero, show serendipity_node_on_slot P 2 P = QUAD_TO_SHAPE_IDX 3 from by
          simp [serendipity_node_on_slot, slot_second, hP0],
        serendipity_corner_eval P cell topo q 3 (by omega)]
      simp [serendipity_canonical_dof, hb]
    · by_cases htP : t = P
      · rw [htP, Nat.sub_self,
          show serendipity_node_on_slot P 2 0 = QUAD_TO_SHAPE_IDX 2 from by
            simp [serendipity_node_on_slot],
          serendipity_corner_eval P cell topo q 2 (by omega)]
        simp [serendipity_canonical_dof, hP0, ha]
      · have hp1 : ¬ (P - t = 0) := by omega
        have hp2 : ¬ (P - t = P) := by omega
        rw [show serendipity_node_on_slot P 2 (P - t)
              = 4 + (P - 1) + (P - (P - t) - 1) from by
          simp [serendipity_node_on_slot, hp1, hp2]]
        simp only [serendipity_element_node_index]
        rw [classifier_slot2 P (P - t) (by omega) (by omega),
          side_offset_far P (P - (P - t) - 1) (by omega)]
        have h1 : P - (P - t) - 1 = t - 1 := by omega
        have h3 : P - 2 - (P - 2 - (t - 1)) = t - 1 := by omega
        simp [serendipity_edge_branch, he, hev, hor, serendipity_canonical_dof, ht0, htP, h1, h3]

theorem serendipity_slot3_dof (P : Nat) (cell : Quadmesh2DCellArg)
    (topo : Quadmesh2DTopologyArg) (q e v0 v1 t : Nat) (hP : 1 ≤ P)
    (he : topo.quad_edge_indices q 3 = e)
    (hev : topo.edge_vertex_indices e = (v0, v1)) (hne : v0 ≠ v1)
    (hmatch : (cell.quad_vertex_indices q 3 = v0 ∧ cell.quad_vertex_indices q 0 = v1) ∨
              (cell.quad_vertex_indices q 3 = v1 ∧ cell.quad_vertex_indices q 0 = v0))
    (ht : t ≤ P) :
    serendipity_element_node_index P cell topo q
        (serendipity_node_on_slot P 3 (slot_pos cell P q 3 v0 t)) =
      serendipity_canonical_dof topo P e v0 v1 t := by
  have hP0 : ¬ (P = 0) := by omega
  rcases hmatch with ⟨ha, hb⟩ | ⟨ha, hb⟩
  · rw [show slot_pos cell P q 3 v0 t = t from by simp [slot_pos, ha]]
    by_cases ht0 : t = 0
    · subst ht0
      rw [show serendipity_node_on_slot P 3 0 = QUAD_TO_SHAPE_IDX 3 from by
          simp [serendipity_node_on_slot],
        serendipity_corner_eval P cell topo q 3 (by omega)]
      simp [serendipity_canonical_dof, ha]
    · by_cases htP : t = P
      · rw [htP, show serendipity_node_on_slot P 3 P = QUAD_TO_SHAPE_IDX 0 from by
            simp [serendipity_node_on_slot, slot_second, hP0],
          serendipity_corner_eval P cell topo q 0 (by omega)]
        simp [serendipity_canonical_dof, hP0, hb]
      · rw [show serendipity_node_on_slot P 3 t = 4 + 2 * (P - 1) + (P - t - 1) from by
          simp [serendipity_node_on_slot, ht0, htP]]
        simp only [serendipity_element_node_index]
        rw [classifier_slot3 P t (by omega) (by omega),
          side_offset_near P (P - t - 1) (by omega)]
        have harith : P - 2 - (P - t - 1) = t - 1 := by omega
        simp [serendipity_edge_branch, he, hev, ha, serendipity_canonical_dof, ht0, htP, harith]
  · have hor : ¬ (cell.quad_vertex_indices q 3 = v0) := by
      rw [ha]; exact fun hc => hne hc.symm
    rw [show slot_pos cell P q 3 v0 t = P - t from by simp [slot_pos, hor]]
    by_cases ht0 : t = 0
    · subst ht0
      rw [Nat.sub_zero, show serendipity_node_on_slot P 3 P = QUAD_TO_SHAPE_IDX 0 from by
          simp [serendipity_node_on_slot, slot_second, hP0],
        serendipity_corner_eval P cell topo q 0 (by omega)]
      simp [serendipity_canonical_dof, hb]
    · by_cases htP : t = P
      · rw [htP, Nat.sub_self,
          show serendipity_node_on_slot P 3 0 = QUAD_TO_SHAPE_IDX 3 from by
            simp [serendipity_node_on_slot],
          serendipity_corner_eval P cell topo q 3 (by omega)]
        simp [serendipity_canonical_dof, hP0, ha]
      · have hp1 : ¬ (P - t = 0) := by omega
        have hp2 : ¬ (P - t = P) := by omega
        rw [show serendipity_node_on_slot P 3 (P - t)
              = 4 + 2 * (P - 1) + (P - (P - t) - 1) from by
          simp [serendipity_node_on_slot, hp1, hp2]]
        simp only [serendipity_element_node_index]
        rw [classifier_slot3 P (P - t) (by omega) (by omega),
          side_offset_near P (P - (P - t) - 1) (by omega)]
        have h1 : P - (P - t) - 1 = t - 1 := by omega
        have h3 : P - 2 - (P - 2 - (t - 1)) = t - 1 := by omega
        simp [serendipity_edge_branch, he, hev, hor, serendipity_canonical_dof, ht0, htP, h1, h3]

theorem bipoly_slot_dof (P : Nat) (cell : Quadmesh2DCellArg) (topo : Quadmesh2DTopologyArg)
    (q k e v0 v1 t : Nat) (hP : 1 ≤ P) (hk : k < 4)
    (he : topo.quad_edge_indices q k = e)
    (hev : topo.edge_vertex_indices e = (v0, v1)) (hne : v0 ≠ v1)
    (hmatch : (cell.quad_vertex_indices q k = v0 ∧
        cell.quad_vertex_indices q (slot_second k) = v1) ∨
      (cell.quad_vertex_indices q k = v1 ∧
        cell.quad_vertex_indices q (slot_second k) = v0))
    (ht : t ≤ P) :
    bipoly_element_node_index P cell topo q
        (bipoly_node_on_slot P k (slot_pos cell P q k v0 t)) =
      bipoly_canonical_dof topo P e v0 v1 t := by
  interval_cases k
  · exact bipoly_slot0_dof P cell topo q e v0 v1 t hP he hev hne
      (by simpa [slot_second] using hmatch) ht
  · exact bipoly_slot1_dof P cell topo q e v0 v1 t hP he hev hne
      (by simpa [slot_second] using hmatch) ht
  · exact bipoly_slot2_dof P cell topo q e v0 v1 t hP he hev hne
      (by simpa [slot_second] using hmatch) ht
  · exact bipoly_slot3_dof P cell topo q e v0 v1 t hP he hev hne
      (by simpa [slot_second] using hmatch) ht

theorem serendipity_slot_dof (P : Nat) (cell : Quadmesh2DCellArg)
    (topo : Quadmesh2DTopologyArg) (q k e v0 v1 t : Nat) (hP : 1 ≤ P) (hk : k < 4)
    (he : topo.quad_edge_indices q k = e)
    (hev : topo.edge_vertex_indices e = (v0, v1)) (hne : v0 ≠ v1)
    (hmatch : (cell.quad_vertex_indices q k = v0 ∧
        cell.quad_vertex_indices q (slot_second k) = v1) ∨
      (cell.quad_vertex_indices q k = v1 ∧
        cell.quad_vertex_indices q (slot_second k) = v0))
    (ht : t ≤ P) :
    serendipity_element_node_index P cell topo q
        (serendipity_node_on_slot P k (slot_pos cell P q k v0 t)) =
      serendipity_canonical_dof topo P e v0 v1 t := by
  interval_cases k
  · exact serendipity_slot0_dof P cell topo q e v0 v1 t hP he hev hne
      (by simpa [slot_second] using hmatch) ht
  · exact serendipity_slot1_dof P cell topo q e v0 v1 t hP he hev hne
      (by simpa [slot_second] using hmatch) ht
  · exact serendipity_slot2_dof P cell topo q e v0 v1 t hP he hev hne
      (by simpa [slot_second] using hmatch) ht
  · exact serendipity_slot3_dof P cell topo q e v0 v1 t hP he hev hne
      (by simpa [slot_second] using hmatch) ht

theorem slot_dof_of_selfconsistent (P : Nat) (cell : Quadmesh2DCellArg)
    (topo : Quadmesh2DTopologyArg) (C q k e t : Nat)
    (hsc : SelfConsistentMesh cell topo C) (hP : 1 ≤ P) (hq : q < C) (hk : k < 4)
    (he : topo.quad_edge_indices q k = e) (ht : t ≤ P) :
    bipoly_element_node_index P cell topo q
        (bipoly_node_on_slot P k (slot_pos cell P q k (topo.edge_vertex_indices e).1 t)) =
      bipoly_canonical_dof topo P e (topo.edge_vertex_indices e).1
        (topo.edge_vertex_indices e).2 t ∧
    serendipity_element_node_index P cell topo q
        (serendipity_node_on_slot P k (slot_pos cell P q k (topo.edge_vertex_indices e).1 t)) =
      serendipity_canonical_dof topo P e (topo.edge_vertex_indices e).1
        (topo.edge_vertex_indices e).2 t := by
  obtain ⟨hv, hec, hpair, hne, -, -⟩ := hsc
  have heE : e < topo.edge_count := he ▸ hec q hq k hk
  have hmatch := hpair q hq k hk
  rw [he] at hmatch
  constructor
  · exact bipoly_slot_dof P cell topo q k e _ _ t hP hk he rfl (hne e heE) hmatch ht
  · exact serendipity_slot_dof P cell topo q k e _ _ t hP hk he rfl (hne e heE) hmatch ht

/-- C1: for every mesh satisfying the section 4.1 self-consistency
precondition, for every interior edge `e` shared by two distinct quads `q0`
and `q1` (holding `e` in slots `k0`, `k1`), and for every physical node on
that edge (canonical position `t ∈ [0, ORDER]`), `element_node_index` — for
both the Bipolynomial and the Serendipity variant — evaluated at `q0` with
the local node `q0` assigns to that physical node returns the same global
DOF index as the evaluation at `q1` with `q1`'s local node for the same
physical node. -/
theorem C1_continuity (P : Nat) (cell : Quadmesh2DCellArg) (topo : Quadmesh2DTopologyArg)
    (C q0 q1 k0 k1 e t : Nat)
    (hsc : SelfConsistentMesh cell topo C) (hP : 1 ≤ P)
    (hq0 : q0 < C) (hq1 : q1 < C) (_hqq : q0 ≠ q1) (hk0 : k0 < 4) (hk1 : k1 < 4)
    (he0 : topo.quad_edge_indices q0 k0 = e) (he1 : topo.quad_edge_indices q1 k1 = e)
    (ht : t ≤ P) :
    bipoly_element_node_index P cell topo q0
        (bipoly_node_on_slot P k0 (slot_pos cell P q0 k0 (topo.edge_vertex_indices e).1 t)) =
      bipoly_element_node_index P cell topo q1
        (bipoly_node_on_slot P k1 (slot_pos cell P q1 k1 (topo.edge_vertex_indices e).1 t)) ∧
    serendipity_element_node_index P cell topo q0
        (serendipity_node_on_slot P k0 (slot_pos cell P q0 k0 (topo.edge_vertex_indices e).1 t)) =
      serendipity_element_node_index P cell topo q1
        (serendipity_node_on_slot P k1 (slot_pos cell P q1 k1 (topo.edge_vertex_indices e).1 t)) := by
  have h0 := slot_dof_of_selfconsistent P cell topo C q0 k0 e t hsc hP hq0 hk0 he0 ht
  have h1 := slot_dof_of_selfconsistent P cell topo C q1 k1 e t hsc hP hq1 hk1 he1 ht
  exact ⟨h0.1.trans h1.1.symm, h0.2.trans h1.2.symm⟩

/-- Witness for C1: the midpoint (`t = 1`, order 2) of the shared interior
edge `e3 = (1,4)` of the 2x1 strip, held by quad 0 in slot 1 and by quad 1
in slot 3. -/
theorem C1_continuity_witness :
    SelfConsistentMesh strip_cell strip_topo 2 ∧
    (bipoly_element_node_index 2 strip_cell strip_topo 0
        (bipoly_node_on_slot 2 1
          (slot_pos strip_cell 2 0 1 (strip_topo.edge_vertex_indices 3).1 1)) =
      bipoly_element_node_index 2 strip_cell strip_topo 1
        (bipoly_node_on_slot 2 3
          (slot_pos strip_cell 2 1 3 (strip_topo.edge_vertex_indices 3).1 1)) ∧
     serendipity_element_node_index 2 strip_cell strip_topo 0
        (serendipity_node_on_slot 2 1
          (slot_pos strip_cell 2 0 1 (strip_topo.edge_vertex_indices 3).1 1)) =
      serendipity_element_node_index 2 strip_cell strip_topo 1
        (serendipity_node_on_slot 2 3
          (slot_pos strip_cell 2 1 3 (strip_topo.edge_vertex_indices 3).1 1))) :=
  ⟨by decide, C1_continuity 2 strip_cell strip_topo 2 0 1 1 3 3 1 (by decide) (by decide)
    (by decide) (by decide) (by decide) (by decide) (by decide) (by decide) (by decide)
    (by decide)⟩

/-- C2 counterexample: for ORDER 3 on the strip mesh, local node 13 of quad 0
has tensor coordinates `(3, 1)` — an edge node on slot 1 (the 1-2 edge) at
1-based position 1 from the slot's first local vertex.  The slot's first
local vertex (vertex id 1) EQUALS the edge's canonical first vertex
(`edge_vertex_indices[3][0] = 1`), so the claim as stated predicts no mirror
and the value `6 + 2*3 + (1-1) = 12`, yet the code returns 13: `wp.select`
yields its second argument exactly when the comparison holds, so the code
mirrors the position when the vertices agree, not when they differ. -/
theorem C2_counterexample :
    strip_cell.quad_vertex_indices 0 1 =
      (strip_topo.edge_vertex_indices (strip_topo.quad_edge_indices 0 1)).1 ∧
    bipoly_element_node_index 3 strip_cell strip_topo 0 13 = 13 ∧
    c2_claimed_edge_index 3 strip_cell strip_topo 0 1 1 = 12 ∧
    bipoly_element_node_index 3 strip_cell strip_topo 0 13 ≠
      c2_claimed_edge_index 3 strip_cell strip_topo 0 1 1 := by
  decide

/-- C2 (amended): for every edge node (exactly one of `node_i`, `node_j` in
`{0, ORDER}`, the other strictly between), `element_node_index` computes the
1-based position in `[1, ORDER-1]` along the edge slot measured from the
slot's element-local first vertex, mirrors it as `ORDER - position` exactly
when the element-local first vertex of that slot EQUALS
`edge_vertex_indices[e][0]`, and returns
`vertex_count + (ORDER-1)*edge_id + (mirrored_position - 1)`. -/
theorem C2_amended_edge_nodes (P : Nat) (cell : Quadmesh2DCellArg)
    (topo : Quadmesh2DTopologyArg) (q i j : Nat) (hP : 1 ≤ P) (hj : j ≤ P)
    (hedge : ((i = 0 ∨ i = P) ∧ 0 < j ∧ j < P) ∨ ((j = 0 ∨ j = P) ∧ 0 < i ∧ i < P)) :
    bipoly_element_node_index P cell topo q (i * (P + 1) + j) =
      topo.vertex_count
        + (P - 1) * topo.quad_edge_indices q (edge_slot_of P i j)
        + ((if cell.quad_vertex_indices q (edge_slot_of P i j) =
              (topo.edge_vertex_indices
                (topo.quad_edge_indices q (edge_slot_of P i j))).1
            then P - edge_pos_of P i j else edge_pos_of P i j) - 1) := by
  have hP0 : ¬ (P = 0) := by omega
  rw [bipoly_element_node_index_ij_eq P cell topo q i j hj]
  rcases hedge with ⟨hi, hj0, hjP⟩ | ⟨hjc, hi0, hiP⟩
  · rcases hi with hi | hi
    · subst hi
      rw [ij_edge30 P cell topo q j (by omega) (by omega)]
      simp only [edge_slot_of, if_pos rfl, edge_pos_of]
      have hPPj : P - (P - j) = j := by omega
      by_cases hc : cell.quad_vertex_indices q 3 =
          (topo.edge_vertex_indices (topo.quad_edge_indices q 3)).1 <;>
        simp [wp_select, hc, hPPj]
    · rw [hi, ij_edge12 P cell topo q j hP0 (by omega) (by omega)]
      simp only [edge_slot_of, if_neg hP0, if_pos rfl, edge_pos_of]
      by_cases hc : cell.quad_vertex_indices q 1 =
          (topo.edge_vertex_indices (topo.quad_edge_indices q 1)).1 <;>
        simp [wp_select, hc]
  · rcases hjc with hjc | hjc
    · subst hjc
      rw [ij_edge01 P cell topo q i (by omega) (by omega)]
      simp only [edge_slot_of, if_neg (by omega : ¬ (i = 0)), if_neg (by omega : ¬ (i = P)),
        if_pos rfl, edge_pos_of]
      by_cases hc : cell.quad_vertex_indices q 0 =
          (topo.edge_vertex_indices (topo.quad_edge_indices q 0)).1 <;>
        simp [wp_select, hc]
    · rw [hjc, ij_edge23 P cell topo q i (by omega) (by omega) hP0]
      simp only [edge_slot_of, if_neg (by omega : ¬ (i = 0)), if_neg (by omega : ¬ (i = P)),
        if_neg hP0, edge_pos_of]
      have hPPi : P - (P - i) = i := by omega
      by_cases hc : cell.quad_vertex_indices q 2 =
          (topo.edge_vertex_indices (topo.quad_edge_indices q 2)).1 <;>
        simp [wp_select, hc, hPPi]

/-- Witness for the amended C2 at the counterexample's input: ORDER 3,
quad 0, tensor coordinates `(3, 1)` (node 13) on the strip mesh. -/
theorem C2_amended_edge_nodes_witness :
    (1 ≤ 3 ∧ (1 : Nat) ≤ 3 ∧
      (((3 : Nat) = 0 ∨ (3 : Nat) = 3) ∧ 0 < 1 ∧ 1 < 3)) ∧
    bipoly_element_node_index 3 strip_cell strip_topo 0 (3 * (3 + 1) + 1) =
      strip_topo.vertex_count
        + (3 - 1) * strip_topo.quad_edge_indices 0 (edge_slot_of 3 3 1)
        + ((if strip_cell.quad_vertex_indices 0 (edge_slot_of 3 3 1) =
              (strip_topo.edge_vertex_indices
                (strip_topo.quad_edge_indices 0 (edge_slot_of 3 3 1))).1
            then 3 - edge_pos_of 3 3 1 else edge_pos_of 3 3 1) - 1) :=
  ⟨⟨by decide, by decide, by decide⟩,
    C2_amended_edge_nodes 3 strip_cell strip_topo 0 3 1 (by decide) (by decide)
      (Or.inl ⟨Or.inr (by decide), by decide, by decide⟩)⟩

/-- C7: for every element, the bipolynomial corner nodes
`(node_i, node_j) = (0,0), (ORDER,0), (ORDER,ORDER), (0,ORDER)` (flat
indices `0`, `ORDER*(ORDER+1)`, `ORDER*(ORDER+1)+ORDER`, `ORDER`) map to the
element's local vertices 0, 1, 2, 3 and return the mesh's own vertex id,
which under the mesh precondition is strictly below `vertex_count`; every
serendipity vertex-type node likewise returns an entry of
`quad_vertex_indices` (via the fixed permutation) below `vertex_count`. -/
theorem C7_corner_identity (P : Nat) (cell : Quadmesh2DCellArg)
    (topo : Quadmesh2DTopologyArg) (q : Nat) (hP : 1 ≤ P)
    (hv : ∀ k < 4, cell.quad_vertex_indices q k < topo.vertex_count) :
    (bipoly_element_node_index P cell topo q 0 = cell.quad_vertex_indices q 0 ∧
     bipoly_element_node_index P cell topo q (P * (P + 1)) = cell.quad_vertex_indices q 1 ∧
     bipoly_element_node_index P cell topo q (P * (P + 1) + P) = cell.quad_vertex_indices q 2 ∧
     bipoly_element_node_index P cell topo q P = cell.quad_vertex_indices q 3) ∧
    (bipoly_element_node_index P cell topo q 0 < topo.vertex_count ∧
     bipoly_element_node_index P cell topo q (P * (P + 1)) < topo.vertex_count ∧
     bipoly_element_node_index P cell topo q (P * (P + 1) + P) < topo.vertex_count ∧
     bipoly_element_node_index P cell topo q P < topo.vertex_count) ∧
    (∀ n < 4, serendipity_element_node_index P cell topo q n =
        cell.quad_vertex_indices q (SHAPE_TO_QUAD_IDX n) ∧
      serendipity_element_node_index P cell topo q n < topo.vertex_count) := by
  have hP0 : ¬ (P = 0) := by omega
  have h0 : bipoly_element_node_index P cell topo q 0 = cell.quad_vertex_indices q 0 := by
    have h := bipoly_element_node_index_ij_eq P cell topo q 0 0 (by omega)
    simp only [Nat.zero_mul, Nat.add_zero] at h
    rw [h, ij_corner0]
  have h1 : bipoly_element_node_index P cell topo q (P * (P + 1)) =
      cell.quad_vertex_indices q 1 := by
    have h := bipoly_element_node_index_ij_eq P cell topo q P 0 (by omega)
    simp only [Nat.add_zero] at h
    rw [h, ij_corner1 P cell topo q hP0]
  have h2 : bipoly_element_node_index P cell topo q (P * (P + 1) + P) =
      cell.quad_vertex_indices q 2 := by
    rw [bipoly_element_node_index_ij_eq P cell topo q P P (by omega),
      ij_corner2 P cell topo q hP0]
  have h3 : bipoly_element_node_index P cell topo q P = cell.quad_vertex_indices q 3 := by
    have h := bipoly_element_node_index_ij_eq P cell topo q 0 P (by omega)
    simp only [Nat.zero_mul, Nat.zero_add] at h
    rw [h, ij_corner3 P cell topo q hP0]
  refine ⟨⟨h0, h1, h2, h3⟩,
    ⟨h0 ▸ hv 0 (by omega), h1 ▸ hv 1 (by omega), h2 ▸ hv 2 (by omega),
      h3 ▸ hv 3 (by omega)⟩, ?_⟩
  intro n hn
  rw [serendipity_vertex_eval P cell topo q n hn]
  refine ⟨rfl, ?_⟩
  interval_cases n
  · exact hv 0 (by norm_num [SHAPE_TO_QUAD_IDX])
  · exact hv 3 (by norm_num [SHAPE_TO_QUAD_IDX])
  · exact hv 1 (by norm_num [SHAPE_TO_QUAD_IDX])
  · exact hv 2 (by norm_num [SHAPE_TO_QUAD_IDX])

/-- Witness for C7: quad 0 of the strip mesh at order 2. -/
theorem C7_corner_identity_witness :
    ((1 : Nat) ≤ 2 ∧ ∀ k < 4, strip_cell.quad_vertex_indices 0 k < strip_topo.vertex_count) ∧
    ((bipoly_element_node_index 2 strip_cell strip_topo 0 0 =
        strip_cell.quad_vertex_indices 0 0 ∧
      bipoly_element_node_index 2 strip_cell strip_topo 0 (2 * (2 + 1)) =
        strip_cell.quad_vertex_indices 0 1 ∧
      bipoly_element_node_index 2 strip_cell strip_topo 0 (2 * (2 + 1) + 2) =
        strip_cell.quad_vertex_indices 0 2 ∧
      bipoly_element_node_index 2 strip_cell strip_topo 0 2 =
        strip_cell.quad_vertex_indices 0 3) ∧
     (bipoly_element_node_index 2 strip_cell strip_topo 0 0 < strip_topo.vertex_count ∧
      bipoly_element_node_index 2 strip_cell strip_topo 0 (2 * (2 + 1)) < strip_topo.vertex_count ∧
      bipoly_element_node_index 2 strip_cell strip_topo 0 (2 * (2 + 1) + 2) < strip_topo.vertex_count ∧
      bipoly_element_node_index 2 strip_cell strip_topo 0 2 < strip_topo.vertex_count) ∧
     (∀ n < 4, serendipity_element_node_index 2 strip_cell strip_topo 0 n =
         strip_cell.quad_vertex_indices 0 (SHAPE_TO_QUAD_IDX n) ∧
       serendipity_element_node_index 2 strip_cell strip_topo 0 n < strip_topo.vertex_count)) :=
  ⟨⟨by decide, by decide⟩,
    C7_corner_identity 2 strip_cell strip_topo 0 (by decide) (by decide)⟩

/-- C8: for every edge-type serendipity node, the `(axis, side_offset)` pair
selects the local edge slot via the fixed table (EDGE_X with offset 0 gives
slot 0, EDGE_X with nonzero offset gives slot 2, EDGE_Y with offset 0 gives
slot 3, EDGE_Y with nonzero offset gives slot 1); the index is pre-mirrored
as `ORDER-2-index` exactly in the slot-2 and slot-3 branches, then mirrored
again as `ORDER-2-index_in_side` exactly when the slot's element-local first
vertex differs from the edge's canonical first vertex, and the result is
`vertex_count + (ORDER-1)*edge_id + index_in_side`. -/
theorem C8_serendipity_edge_slots (P : Nat) (cell : Quadmesh2DCellArg)
    (topo : Quadmesh2DTopologyArg) (q : Nat) (ty : SerendipityNodeType) (o r : Nat)
    (hty : ty ≠ SerendipityNodeType.VERTEX) :
    serendipity_edge_branch P cell topo q ty o r =
      topo.vertex_count
        + (P - 1) * topo.quad_edge_indices q
            (if ty = SerendipityNodeType.EDGE_X then (if o = 0 then 0 else 2)
             else (if o = 0 then 3 else 1))
        + (if cell.quad_vertex_indices q
              (if ty = SerendipityNodeType.EDGE_X then (if o = 0 then 0 else 2)
               else (if o = 0 then 3 else 1)) =
            (topo.edge_vertex_indices (topo.quad_edge_indices q
              (if ty = SerendipityNodeType.EDGE_X then (if o = 0 then 0 else 2)
               else (if o = 0 then 3 else 1)))).1
           then (if (ty = SerendipityNodeType.EDGE_X ∧ o ≠ 0) ∨
                    (ty = SerendipityNodeType.EDGE_Y ∧ o = 0)
                 then P - 2 - r else r)
           else P - 2 - (if (ty = SerendipityNodeType.EDGE_X ∧ o ≠ 0) ∨
                    (ty = SerendipityNodeType.EDGE_Y ∧ o = 0)
                 then P - 2 - r else r)) := by
  cases ty with
  | VERTEX => exact absurd rfl hty
  | EDGE_X =>
      by_cases ho : o = 0
      · by_cases hc : cell.quad_vertex_indices q 0 =
            (topo.edge_vertex_indices (topo.quad_edge_indices q 0)).1 <;>
          simp [serendipity_edge_branch, ho, hc]
      · by_cases hc : cell.quad_vertex_indices q 2 =
            (topo.edge_vertex_indices (topo.quad_edge_indices q 2)).1 <;>
          simp [serendipity_edge_branch, ho, hc]
  | EDGE_Y =>
      by_cases ho : o = 0
      · by_cases hc : cell.quad_vertex_indices q 3 =
            (topo.edge_vertex_indices (topo.quad_edge_indices q 3)).1 <;>
          simp [serendipity_edge_branch, ho, hc]
      · by_cases hc : cell.quad_vertex_indices q 1 =
            (topo.edge_vertex_indices (topo.quad_edge_indices q 1)).1 <;>
          simp [serendipity_edge_branch, ho, hc]

/-- Witness for C8: EDGE_X on the far side (offset 1), raw index 0, order 3,
quad 0 of the strip mesh. -/
theorem C8_serendipity_edge_slots_witness :
    SerendipityNodeType.EDGE_X ≠ SerendipityNodeType.VERTEX ∧
    serendipity_edge_branch 3 strip_cell strip_topo 0 SerendipityNodeType.EDGE_X 1 0 =
      strip_topo.vertex_count
        + (3 - 1) * strip_topo.quad_edge_indices 0
            (if SerendipityNodeType.EDGE_X = SerendipityNodeType.EDGE_X then
              (if (1 : Nat) = 0 then 0 else 2) else (if (1 : Nat) = 0 then 3 else 1))
        + (if strip_cell.quad_vertex_indices 0
              (if SerendipityNodeType.EDGE_X = SerendipityNodeType.EDGE_X then
                (if (1 : Nat) = 0 then 0 else 2) else (if (1 : Nat) = 0 then 3 else 1)) =
            (strip_topo.edge_vertex_indices (strip_topo.quad_edge_indices 0
              (if SerendipityNodeType.EDGE_X = SerendipityNodeType.EDGE_X then
                (if (1 : Nat) = 0 then 0 else 2) else (if (1 : Nat) = 0 then 3 else 1)))).1
           then (if (SerendipityNodeType.EDGE_X = SerendipityNodeType.EDGE_X ∧ (1 : Nat) ≠ 0) ∨
                    (SerendipityNodeType.EDGE_X = SerendipityNodeType.EDGE_Y ∧ (1 : Nat) = 0)
                 then 3 - 2 - 0 else 0)
           else 3 - 2 - (if (SerendipityNodeType.EDGE_X = SerendipityNodeType.EDGE_X ∧ (1 : Nat) ≠ 0) ∨
                    (SerendipityNodeType.EDGE_X = SerendipityNodeType.EDGE_Y ∧ (1 : Nat) = 0)
                 then 3 - 2 - 0 else 0)) :=
  ⟨by decide, C8_serendipity_edge_slots 3 strip_cell strip_topo 0
    SerendipityNodeType.EDGE_X 1 0 (by decide)⟩

theorem bipoly_path_unique (P i j : Nat) (b b' : BipolyBranch)
    (h : bipoly_path P i j b) (h' : bipoly_path P i j b') : b = b' := by
  cases b <;> cases b' <;>
    simp only [bipoly_path] at h h' <;>
    first
    | rfl
    | omega

theorem bipoly_path_exists (P i j : Nat) : ∃ b, bipoly_path P i j b := by
  by_cases hi0 : i = 0
  · by_cases hj0 : j = 0
    · exact ⟨BipolyBranch.corner0, hi0, hj0⟩
    · by_cases hjP : j = P
      · exact ⟨BipolyBranch.corner3, hi0, hj0, hjP⟩
      · exact ⟨BipolyBranch.edge30, hi0, hj0, hjP⟩
  · by_cases hiP : i = P
    · by_cases hj0 : j = 0
      · exact ⟨BipolyBranch.corner1, hi0, hiP, hj0⟩
      · by_cases hjP : j = P
        · exact ⟨BipolyBranch.corner2, hi0, hiP, hj0, hjP⟩
        · exact ⟨BipolyBranch.edge12, hi0, hiP, hj0, hjP⟩
    · by_cases hj0 : j = 0
      · exact ⟨BipolyBranch.edge01, hi0, hiP, hj0⟩
      · by_cases hjP : j = P
        · exact ⟨BipolyBranch.edge23, hi0, hiP, hj0, hjP⟩
        · exact ⟨BipolyBranch.interior, hi0, hiP, hj0, hjP⟩

/-- C10: for every `ORDER ≥ 1` and every `node_index_in_elt` below
`(ORDER+1)^2`, exactly one return site of the bipolynomial
`element_node_index` body is reached (the function never falls through),
the function returns exactly that site's expression, the interior return is
reached if and only if both tensor coordinates are strictly between 0 and
`ORDER`, and for `ORDER = 1` every node is classified as a corner. -/
theorem C10_branch_totality (P : Nat) (cell : Quadmesh2DCellArg)
    (topo : Quadmesh2DTopologyArg) (q n : Nat) (hP : 1 ≤ P) (hn : n < (P + 1) ^ 2) :
    (∃! b, bipoly_path P (n / (P + 1)) (n - (P + 1) * (n / (P + 1))) b) ∧
    (∀ b, bipoly_path P (n / (P + 1)) (n - (P + 1) * (n / (P + 1))) b →
      bipoly_element_node_index P cell topo q n =
        bipoly_branch_value P cell topo q (n / (P + 1))
          (n - (P + 1) * (n / (P + 1))) b) ∧
    (bipoly_path P (n / (P + 1)) (n - (P + 1) * (n / (P + 1))) BipolyBranch.interior ↔
      0 < n / (P + 1) ∧ n / (P + 1) < P ∧
      0 < n - (P + 1) * (n / (P + 1)) ∧ n - (P + 1) * (n / (P + 1)) < P) ∧
    (P = 1 → ∀ b, bipoly_path P (n / (P + 1)) (n - (P + 1) * (n / (P + 1))) b →
      b.isCorner) := by
  obtain ⟨hiP, hjP⟩ := bipoly_coord_bounds P n hn
  set i := n / (P + 1) with hi_def
  set j := n - (P + 1) * i with hj_def
  rw [show bipoly_element_node_index P cell topo q n =
    bipoly_node_index_ij P cell topo q i j from rfl]
  clear_value i j
  clear hi_def hj_def hn
  obtain ⟨b, hb⟩ := bipoly_path_exists P i j
  refine ⟨⟨b, hb, fun y hy => bipoly_path_unique P _ _ y b hy hb⟩, ?_, ?_, ?_⟩
  · intro b' hb'
    cases b' <;> simp only [bipoly_path] at hb'
    · rw [hb'.1, hb'.2, ij_corner0]
      simp [bipoly_branch_value]
    · rw [hb'.1, hb'.2.2, ij_corner3 P cell topo q (by omega)]
      simp [bipoly_branch_value]
    · rw [hb'.1, ij_edge30 P cell topo q _ hb'.2.1 hb'.2.2]
      simp [bipoly_branch_value, hb'.1]
    · rw [hb'.2.1, hb'.2.2, ij_corner1 P cell topo q (by omega)]
      simp [bipoly_branch_value]
    · rw [hb'.2.1, hb'.2.2.2, ij_corner2 P cell topo q (by omega)]
      simp [bipoly_branch_value]
    · rw [hb'.2.1, ij_edge12 P cell topo q _ (by omega) hb'.2.2.1 hb'.2.2.2]
      simp [bipoly_branch_value, hb'.2.1]
    · rw [hb'.2.2, ij_edge01 P cell topo q _ hb'.1 hb'.2.1]
      simp [bipoly_branch_value, hb'.2.2]
    · rw [hb'.2.2.2, ij_edge23 P cell topo q _ hb'.1 hb'.2.1 (by omega)]
      simp [bipoly_branch_value, hb'.2.2.2]
    · rw [ij_interior P cell topo q _ _ hb'.1 hb'.2.1 hb'.2.2.1 hb'.2.2.2]
      simp [bipoly_branch_value, Nat.zero_max]
  · simp only [bipoly_path]
    omega
  · intro hP1 b' hb'
    cases b' <;> simp only [bipoly_path] at hb' <;>
      simp only [BipolyBranch.isCorner] <;>
      first
      | trivial
      | omega

/-- Witness for C10 at order 2, node 4 (tensor coordinates `(1,1)`). -/
theorem C10_branch_totality_witness :
    ((1 : Nat) ≤ 2 ∧ (4 : Nat) < (2 + 1) ^ 2) ∧
    ((∃! b, bipoly_path 2 (4 / (2 + 1)) (4 - (2 + 1) * (4 / (2 + 1))) b) ∧
     (∀ b, bipoly_path 2 (4 / (2 + 1)) (4 - (2 + 1) * (4 / (2 + 1))) b →
       bipoly_element_node_index 2 strip_cell strip_topo 0 4 =
         bipoly_branch_value 2 strip_cell strip_topo 0 (4 / (2 + 1))
           (4 - (2 + 1) * (4 / (2 + 1))) b) ∧
     (bipoly_path 2 (4 / (2 + 1)) (4 - (2 + 1) * (4 / (2 + 1))) BipolyBranch.interior ↔
       0 < 4 / (2 + 1) ∧ 4 / (2 + 1) < 2 ∧
       0 < 4 - (2 + 1) * (4 / (2 + 1)) ∧ 4 - (2 + 1) * (4 / (2 + 1)) < 2) ∧
     ((2 : Nat) = 1 → ∀ b, bipoly_path 2 (4 / (2 + 1)) (4 - (2 + 1) * (4 / (2 + 1))) b →
       b.isCorner)) :=
  ⟨⟨by decide, by decide⟩,
    C10_branch_totality 2 strip_cell strip_topo 0 4 (by decide) (by decide)⟩

theorem lookup_consistent (build : Nat → Quadmesh2DTopologyArg) :
    ∀ (entries : List (Nat × Quadmesh2DTopologyArg)) (d : Nat) (v : Quadmesh2DTopologyArg),
      (∀ p ∈ entries, p.2 = build p.1) → entries.lookup d = some v → v = build d := by
  intro entries
  induction entries with
  | nil => intro d v _ h; simp [List.lookup] at h
  | cons p es ih =>
      obtain ⟨k, w⟩ := p
      intro d v hcons h
      simp only [List.lookup] at h
      by_cases hd : d = k
      · have hbeq : (d == k) = true := by simp [hd]
        rw [hbeq] at h
        simp only [Option.some.injEq] at h
        have hw : w = build k := hcons (k, w) (List.mem_cons_self _ _)
        rw [← h, hw, hd]
      · have hbeq : (d == k) = false := by simp [hd]
        rw [hbeq] at h
        exact ih d v (fun p hp => hcons p (List.mem_cons_of_mem _ hp)) h

theorem cached_call_value (build : Nat → Quadmesh2DTopologyArg)
    (entries : List (Nat × Quadmesh2DTopologyArg)) (d : Nat)
    (hcons : ∀ p ∈ entries, p.2 = build p.1) :
    (cached_arg_call build entries d).1 = build d := by
  unfold cached_arg_call
  cases h : entries.lookup d with
  | none => rfl
  | some v => exact lookup_consistent build entries d v hcons h

theorem cached_call_consistent (build : Nat → Quadmesh2DTopologyArg)
    (entries : List (Nat × Quadmesh2DTopologyArg)) (d : Nat)
    (hcons : ∀ p ∈ entries, p.2 = build p.1) :
    ∀ p ∈ (cached_arg_call build entries d).2.1, p.2 = build p.1 := by
  unfold cached_arg_call
  cases h : entries.lookup d with
  | none =>
      intro p hp
      rcases List.mem_cons.mp hp with hp | hp
      · rw [hp]
      · exact hcons p hp
  | some v => exact hcons

theorem cached_run_consistent (build : Nat → Quadmesh2DTopologyArg) (ds : List Nat) :
    ∀ entries, (∀ p ∈ entries, p.2 = build p.1) →
      ∀ p ∈ cached_arg_run build entries ds, p.2 = build p.1 := by
  induction ds with
  | nil => intro entries hcons; exact hcons
  | cons dev ds ih =>
      intro entries hcons
      exact ih _ (cached_call_consistent build entries dev hcons)

theorem lookup_after_call_self (build : Nat → Quadmesh2DTopologyArg)
    (entries : List (Nat × Quadmesh2DTopologyArg)) (d : Nat) :
    ((cached_arg_call build entries d).2.1.lookup d).isSome = true := by
  unfold cached_arg_call
  cases h : entries.lookup d with
  | none => simp [List.lookup]
  | some v => simp [h]

theorem lookup_after_call_mono (build : Nat → Quadmesh2DTopologyArg)
    (entries : List (Nat × Quadmesh2DTopologyArg)) (d dev : Nat)
    (hd : (entries.lookup d).isSome = true) :
    ((cached_arg_call build entries dev).2.1.lookup d).isSome = true := by
  unfold cached_arg_call
  cases h : entries.lookup dev with
  | none =>
      simp only [List.lookup]
      by_cases hdd : d = dev
      · have hbeq : (d == dev) = true := by simp [hdd]
        rw [hbeq]
        rfl
      · have hbeq : (d == dev) = false := by simp [hdd]
        rw [hbeq]
        exact hd
  | some v => simpa [h] using hd

theorem cached_fired_iff (build : Nat → Quadmesh2DTopologyArg)
    (entries : List (Nat × Quadmesh2DTopologyArg)) (d : Nat) :
    (cached_arg_call build entries d).2.2 = true ↔ entries.lookup d = none := by
  unfold cached_arg_call
  cases h : entries.lookup d <;> simp

theorem cached_build_count_le_one (build : Nat → Quadmesh2DTopologyArg) (d : Nat) :
    ∀ (ds : List Nat) (entries : List (Nat × Quadmesh2DTopologyArg)),
      cached_build_count build entries d ds ≤ 1 ∧
      ((entries.lookup d).isSome = true → cached_build_count build entries d ds = 0) := by
  intro ds
  induction ds with
  | nil => intro entries; exact ⟨by simp [cached_build_count], fun _ => rfl⟩
  | cons dev ds ih =>
      intro entries
      constructor
      · show (if dev = d ∧ (cached_arg_call build entries dev).2.2 = true then 1 else 0)
          + cached_build_count build (cached_arg_call build entries dev).2.1 d ds ≤ 1
        by_cases hfire : dev = d ∧ (cached_arg_call build entries dev).2.2 = true
        · rw [if_pos hfire]
          have hz : cached_build_count build (cached_arg_call build entries dev).2.1 d ds = 0 := by
            apply (ih _).2
            rw [← hfire.1]
            exact lookup_after_call_self build entries dev
          omega
        · rw [if_neg hfire]
          have := (ih ((cached_arg_call build entries dev).2.1)).1
          omega
      · intro hsome
        show (if dev = d ∧ (cached_arg_call build entries dev).2.2 = true then 1 else 0)
          + cached_build_count build (cached_arg_call build entries dev).2.1 d ds = 0
        have hnofire : ¬ (dev = d ∧ (cached_arg_call build entries dev).2.2 = true) := by
          rintro ⟨hdd, hf⟩
          rw [cached_fired_iff] at hf
          rw [hdd] at hf
          rw [hf] at hsome
          simp at hsome
        rw [if_neg hnofire]
        have hz : cached_build_count build (cached_arg_call build entries dev).2.1 d ds = 0 :=
          (ih _).2 (lookup_after_call_mono build entries d dev hsome)
        omega

/-- C9: on one topology, after any prior call history, two
`topo_arg_value` calls with the same device return the identical
TopologyArg struct — both equal the struct built from the mesh, fixing
`edge_vertex_indices`, `quad_edge_indices`, `vertex_count` and
`edge_count` — the second call returns the cached value without a rebuild,
and over any call sequence from a fresh topology the builder fires at most
once per device. -/
theorem C9_per_device_caching (m : Quadmesh2D) (qei : Nat → Nat → Nat)
    (ds : List Nat) (d : Nat) :
    (cached_arg_call (topo_arg_build m qei)
        (cached_arg_run (topo_arg_build m qei) [] ds) d).1 = topo_arg_build m qei d ∧
    (cached_arg_call (topo_arg_build m qei)
        ((cached_arg_call (topo_arg_build m qei)
            (cached_arg_run (topo_arg_build m qei) [] ds) d).2.1) d).1 =
      topo_arg_build m qei d ∧
    (cached_arg_call (topo_arg_build m qei)
        ((cached_arg_call (topo_arg_build m qei)
            (cached_arg_run (topo_arg_build m qei) [] ds) d).2.1) d).2.2 = false ∧
    cached_build_count (topo_arg_build m qei) [] d ds ≤ 1 := by
  have hcons0 : ∀ p ∈ ([] : List (Nat × Quadmesh2DTopologyArg)),
      p.2 = topo_arg_build m qei p.1 := fun p hp => absurd hp (List.not_mem_nil p)
  have hcons1 := cached_run_consistent (topo_arg_build m qei) ds [] hcons0
  have hcons2 := cached_call_consistent (topo_arg_build m qei)
    (cached_arg_run (topo_arg_build m qei) [] ds) d hcons1
  refine ⟨cached_call_value _ _ d hcons1, cached_call_value _ _ d hcons2, ?_,
    (cached_build_count_le_one _ d ds []).1⟩
  have hsome := lookup_after_call_self (topo_arg_build m qei)
    (cached_arg_run (topo_arg_build m qei) [] ds) d
  have hfired := cached_fired_iff (topo_arg_build m qei)
    ((cached_arg_call (topo_arg_build m qei)
      (cached_arg_run (topo_arg_build m qei) [] ds) d).2.1) d
  cases hb : (cached_arg_call (topo_arg_build m qei)
      ((cached_arg_call (topo_arg_build m qei)
        (cached_arg_run (topo_arg_build m qei) [] ds) d).2.1) d).2.2
  · rfl
  · have hnone := hfired.mp hb
    rw [hnone] at hsome
    simp at hsome

theorem mul_add_lt_inj (a e r ep rp : Nat) (hr : r < a) (hrp : rp < a)
    (h : a * e + r = a * ep + rp) : e = ep ∧ r = rp := by
  have h1 : (a * e + r) / a = e := by
    rw [Nat.mul_add_div (by omega), Nat.div_eq_of_lt hr]
    omega
  have h2 : (a * ep + rp) / a = ep := by
    rw [Nat.mul_add_div (by omega), Nat.div_eq_of_lt hrp]
    omega
  have he : e = ep := by rw [← h1, h, h2]
  subst he
  exact ⟨rfl, by omega⟩

theorem bipoly_master_ij (P : Nat) (cell : Quadmesh2DCellArg)
    (topo : Quadmesh2DTopologyArg) (q i j : Nat) (hP : 1 ≤ P)
    (hi : i ≤ P) (hj : j ≤ P) :
    bipoly_node_index_ij P cell topo q i j =
      bipoly_dof_value P topo (bipoly_phys_node_ij P cell topo q i j) := by
  have hP0 : ¬ (P = 0) := by omega
  by_cases hi0 : i = 0
  · subst hi0
    by_cases hj0 : j = 0
    · subst hj0
      rw [ij_corner0]
      simp [bipoly_phys_node_ij, bipoly_dof_value]
    · by_cases hjP : j = P
      · rw [hjP, ij_corner3 P cell topo q hP0]
        simp [bipoly_phys_node_ij, bipoly_dof_value, hP0]
      · rw [ij_edge30 P cell topo q j hj0 hjP]
        simp only [bipoly_phys_node_ij, if_pos rfl, if_neg hj0, if_neg hjP]
        by_cases hc : cell.quad_vertex_indices q 3 =
            (topo.edge_vertex_indices (topo.quad_edge_indices q 3)).1 <;>
          simp [wp_select, canon_pos, hc, bipoly_dof_value] <;> omega
  · by_cases hiP : i = P
    · by_cases hj0 : j = 0
      · rw [hiP, hj0, ij_corner1 P cell topo q hP0]
        simp [bipoly_phys_node_ij, bipoly_dof_value, hP0]
      · by_cases hjP : j = P
        · rw [hiP, hjP, ij_corner2 P cell topo q hP0]
          simp [bipoly_phys_node_ij, bipoly_dof_value, hP0]
        · rw [hiP, ij_edge12 P cell topo q j hP0 hj0 hjP]
          simp only [bipoly_phys_node_ij, if_neg hP0, if_pos rfl, if_neg hj0, if_neg hjP]
          by_cases hc : cell.quad_vertex_indices q 1 =
              (topo.edge_vertex_indices (topo.quad_edge_indices q 1)).1 <;>
            simp [wp_select, canon_pos, hc, bipoly_dof_value] <;> omega
    · by_cases hj0 : j = 0
      · subst hj0
        rw [ij_edge01 P cell topo q i hi0 hiP]
        simp only [bipoly_phys_node_ij, if_neg hi0, if_neg hiP, if_pos rfl]
        by_cases hc : cell.quad_vertex_indices q 0 =
            (topo.edge_vertex_indices (topo.quad_edge_indices q 0)).1 <;>
          simp [wp_select, canon_pos, hc, bipoly_dof_value] <;> omega
      · by_cases hjP : j = P
        · rw [hjP, ij_edge23 P cell topo q i hi0 hiP hP0]
          simp only [bipoly_phys_node_ij, if_neg hi0, if_neg hiP, if_neg hP0, if_pos rfl]
          by_cases hc : cell.quad_vertex_indices q 2 =
              (topo.edge_vertex_indices (topo.quad_edge_indices q 2)).1 <;>
            simp [wp_select, canon_pos, hc, bipoly_dof_value] <;> omega
        · rw [ij_interior P cell topo q i j hi0 hiP hj0 hjP]
          simp [bipoly_phys_node_ij, hi0, hiP, hj0, hjP, bipoly_dof_value]
          omega

theorem bipoly_master (P : Nat) (cell : Quadmesh2DCellArg)
    (topo : Quadmesh2DTopologyArg) (q n : Nat) (hP : 1 ≤ P) (hn : n < (P + 1) ^ 2) :
    bipoly_element_node_index P cell topo q n =
      bipoly_dof_value P topo (bipoly_phys_node P cell topo q n) := by
  obtain ⟨hi, hj⟩ := bipoly_coord_bounds P n hn
  exact bipoly_master_ij P cell topo q (n / (P + 1)) (n - (P + 1) * (n / (P + 1))) hP hi hj

theorem bipoly_phys_valid_ij (P : Nat) (cell : Quadmesh2DCellArg)
    (topo : Quadmesh2DTopologyArg) (C q i j : Nat)
    (hsc : SelfConsistentMesh cell topo C) (hP : 1 ≤ P) (hq : q < C)
    (hi : i ≤ P) (hj : j ≤ P) :
    bipoly_phys_valid P topo.vertex_count topo.edge_count C
      (bipoly_phys_node_ij P cell topo q i j) := by
  obtain ⟨hv, hec, -, -, -, -⟩ := hsc
  have hP0 : ¬ (P = 0) := by omega
  by_cases hi0 : i = 0
  · subst hi0
    by_cases hj0 : j = 0
    · simp [bipoly_phys_node_ij, hj0, bipoly_phys_valid]
      exact hv q hq 0 (by omega)
    · by_cases hjP : j = P
      · simp [bipoly_phys_node_ij, hj0, hjP, hP0, bipoly_phys_valid]
        exact hv q hq 3 (by omega)
      · simp only [bipoly_phys_node_ij, if_pos rfl, if_neg hj0, if_neg hjP]
        refine ⟨hec q hq 3 (by omega), ?_, ?_⟩ <;> unfold canon_pos <;> split <;> omega
  · by_cases hiP : i = P
    · by_cases hj0 : j = 0
      · simp [bipoly_phys_node_ij, hi0, hiP, hj0, hP0, bipoly_phys_valid]
        exact hv q hq 1 (by omega)
      · by_cases hjP : j = P
        · simp [bipoly_phys_node_ij, hi0, hiP, hj0, hjP, hP0, bipoly_phys_valid]
          exact hv q hq 2 (by omega)
        · simp only [bipoly_phys_node_ij, if_neg hi0, if_pos hiP, if_neg hj0, if_neg hjP]
          refine ⟨hec q hq 1 (by omega), ?_, ?_⟩ <;> unfold canon_pos <;> split <;> omega
    · by_cases hj0 : j = 0
      · simp only [bipoly_phys_node_ij, if_neg hi0, if_neg hiP, if_pos hj0]
        refine ⟨hec q hq 0 (by omega), ?_, ?_⟩ <;> unfold canon_pos <;> split <;> omega
      · by_cases hjP : j = P
        · simp only [bipoly_phys_node_ij, if_neg hi0, if_neg hiP, if_neg hj0, if_pos hjP]
          refine ⟨hec q hq 2 (by omega), ?_, ?_⟩ <;> unfold canon_pos <;> split <;> omega
        · simp only [bipoly_phys_node_ij, if_neg hi0, if_neg hiP, if_neg hj0, if_neg hjP]
          exact ⟨hq, by omega, by omega⟩

theorem bipoly_phys_valid_node (P : Nat) (cell : Quadmesh2DCellArg)
    (topo : Quadmesh2DTopologyArg) (C q n : Nat)
    (hsc : SelfConsistentMesh cell topo C) (hP : 1 ≤ P) (hq : q < C)
    (hn : n < (P + 1) ^ 2) :
    bipoly_phys_valid P topo.vertex_count topo.edge_count C
      (bipoly_phys_node P cell topo q n) := by
  obtain ⟨hi, hj⟩ := bipoly_coord_bounds P n hn
  exact bipoly_phys_valid_ij P cell topo C q _ _ hsc hP hq hi hj

theorem bipoly_edge_dof_lt (P V E e t : Nat) (he : e < E) (ht1 : 1 ≤ t)
    (ht2 : t ≤ P - 1) :
    V + (P - 1) * e + (P - t - 1) < V + E * (P - 1) := by
  have h1 : (P - 1) * e + (P - t - 1) < (P - 1) * (e + 1) := by
    have : (P - 1) * (e + 1) = (P - 1) * e + (P - 1) := by ring
    omega
  have h2 : (P - 1) * (e + 1) ≤ (P - 1) * E := Nat.mul_le_mul_left _ (by omega)
  have h3 : (P - 1) * E = E * (P - 1) := Nat.mul_comm _ _
  omega

theorem bipoly_cell_offset_lt (P a b : Nat) (ha : a < P - 1) (hb : b < P - 1) :
    a * (P - 1) + b < (P - 1) ^ 2 := by
  have h1 : a * (P - 1) ≤ (P - 2) * (P - 1) := Nat.mul_le_mul_right _ (by omega)
  have h2 : (P - 2) * (P - 1) + (P - 1) = (P - 1) ^ 2 := by
    have hP2 : P - 2 + 1 = P - 1 := by omega
    calc (P - 2) * (P - 1) + (P - 1) = (P - 2 + 1) * (P - 1) := by ring
    _ = (P - 1) * (P - 1) := by rw [hP2]
    _ = (P - 1) ^ 2 := by ring
  omega

theorem bipoly_dof_value_lt (P : Nat) (topo : Quadmesh2DTopologyArg) (C : Nat)
    (x : PhysNode) (_hP : 1 ≤ P)
    (hval : bipoly_phys_valid P topo.vertex_count topo.edge_count C x) :
    bipoly_dof_value P topo x <
      bipoly_node_count P topo.vertex_count topo.edge_count C := by
  have hcount : bipoly_node_count P topo.vertex_count topo.edge_count C =
      topo.vertex_count + topo.edge_count * (P - 1) + C * (P - 1) ^ 2 := by
    simp [bipoly_node_count, Nat.zero_max]
  rw [hcount]
  rcases x with v | ⟨e, t⟩ | ⟨q, a, b⟩
  · simp only [bipoly_dof_value]
    have hv : v < topo.vertex_count := hval
    omega
  · obtain ⟨he, ht1, ht2⟩ := hval
    simp only [bipoly_dof_value]
    have := bipoly_edge_dof_lt P topo.vertex_count topo.edge_count e t he ht1 ht2
    omega
  · obtain ⟨hq, ha, hb⟩ := hval
    simp only [bipoly_dof_value]
    have h1 := bipoly_cell_offset_lt P a b ha hb
    have h2 : q * (P - 1) ^ 2 + (P - 1) ^ 2 ≤ C * (P - 1) ^ 2 := by
      have : q * (P - 1) ^ 2 + (P - 1) ^ 2 = (q + 1) * (P - 1) ^ 2 := by ring
      rw [this]
      exact Nat.mul_le_mul_right _ (by omega)
    omega

theorem bipoly_dof_value_inj (P : Nat) (topo : Quadmesh2DTopologyArg) (C : Nat)
    (x y : PhysNode) (hP : 1 ≤ P)
    (hx : bipoly_phys_valid P topo.vertex_count topo.edge_count C x)
    (hy : bipoly_phys_valid P topo.vertex_count topo.edge_count C y)
    (h : bipoly_dof_value P topo x = bipoly_dof_value P topo y) : x = y := by
  rcases x with v | ⟨e, t⟩ | ⟨q, a, b⟩ <;> rcases y with w | ⟨f, u⟩ | ⟨r, c, d⟩ <;>
    simp only [bipoly_dof_value, bipoly_phys_valid] at h hx hy
  · rw [h]
  · exact absurd h (by omega)
  · exact absurd h (by
      have := bipoly_cell_offset_lt P c d hy.2.1 hy.2.2
      omega)
  · exact absurd h (by omega)
  · -- edge vs edge
    have h' : (P - 1) * e + (P - t - 1) = (P - 1) * f + (P - u - 1) := by omega
    obtain ⟨hef, hoff⟩ := mul_add_lt_inj (P - 1) e (P - t - 1) f (P - u - 1)
      (by omega) (by omega) h'
    have : t = u := by omega
    rw [hef, this]
  · exact absurd h (by
      have h1 := bipoly_edge_dof_lt P topo.vertex_count topo.edge_count e t
        hx.1 hx.2.1 hx.2.2
      omega)
  · exact absurd h (by
      have := bipoly_cell_offset_lt P a b hx.2.1 hx.2.2
      omega)
  · exact absurd h (by
      have h1 := bipoly_edge_dof_lt P topo.vertex_count topo.edge_count f u
        hy.1 hy.2.1 hy.2.2
      omega)
  · -- interior vs interior
    have h' : (P - 1) ^ 2 * q + (a * (P - 1) + b) =
        (P - 1) ^ 2 * r + (c * (P - 1) + d) := by
      have c1 : (P - 1) ^ 2 * q = q * (P - 1) ^ 2 := Nat.mul_comm _ _
      have c2 : (P - 1) ^ 2 * r = r * (P - 1) ^ 2 := Nat.mul_comm _ _
      omega
    obtain ⟨hqr, hoff⟩ := mul_add_lt_inj ((P - 1) ^ 2) q (a * (P - 1) + b) r
      (c * (P - 1) + d)
      (bipoly_cell_offset_lt P a b hx.2.1 hx.2.2)
      (bipoly_cell_offset_lt P c d hy.2.1 hy.2.2) h'
    have h'' : (P - 1) * a + b = (P - 1) * c + d := by
      have c1 : (P - 1) * a = a * (P - 1) := Nat.mul_comm _ _
      have c2 : (P - 1) * c = c * (P - 1) := Nat.mul_comm _ _
      omega
    obtain ⟨hac, hbd⟩ := mul_add_lt_inj (P - 1) a b c d hx.2.2 hy.2.2 h''
    rw [hqr, hac, hbd]

theorem slot_pos_le (cell : Quadmesh2DCellArg) (P q k v0 t : Nat) (ht : t ≤ P) :
    slot_pos cell P q k v0 t ≤ P := by
  unfold slot_pos
  split <;> omega

theorem bipoly_corner_eval (P : Nat) (cell : Quadmesh2DCellArg)
    (topo : Quadmesh2DTopologyArg) (q k : Nat) (hP : 1 ≤ P) (hk : k < 4) :
    bipoly_element_node_index P cell topo q (bipoly_node_on_slot P k 0) =
      cell.quad_vertex_indices q k := by
  have hP0 : ¬ (P = 0) := by omega
  interval_cases k
  · rw [show bipoly_node_on_slot P 0 0 = 0 * (P + 1) + 0 from by simp [bipoly_node_on_slot],
      bipoly_element_node_index_ij_eq P cell topo q 0 0 (by omega), ij_corner0]
  · rw [show bipoly_node_on_slot P 1 0 = P * (P + 1) + 0 from by simp [bipoly_node_on_slot],
      bipoly_element_node_index_ij_eq P cell topo q P 0 (by omega),
      ij_corner1 P cell topo q hP0]
  · rw [show bipoly_node_on_slot P 2 0 = P * (P + 1) + P from by simp [bipoly_node_on_slot],
      bipoly_element_node_index_ij_eq P cell topo q P P (by omega),
      ij_corner2 P cell topo q hP0]
  · rw [show bipoly_node_on_slot P 3 0 = 0 * (P + 1) + P from by simp [bipoly_node_on_slot],
      bipoly_element_node_index_ij_eq P cell topo q 0 P (by omega),
      ij_corner3 P cell topo q hP0]

theorem bipoly_node_on_slot_lt (P k p : Nat) (hk : k < 4) (hp : p ≤ P) :
    bipoly_node_on_slot P k p < (P + 1) ^ 2 := by
  have hsq : (P + 1) ^ 2 = P * (P + 1) + (P + 1) := by ring
  interval_cases k <;> simp only [bipoly_node_on_slot]
  · have := Nat.mul_le_mul_right (P + 1) hp
    omega
  · omega
  · have := Nat.mul_le_mul_right (P + 1) (Nat.sub_le P p)
    omega
  · omega

theorem bipoly_interior_eval (P : Nat) (cell : Quadmesh2DCellArg)
    (topo : Quadmesh2DTopologyArg) (q a b : Nat) (hP2 : 2 ≤ P)
    (ha : a < P - 1) (hb : b < P - 1) :
    bipoly_element_node_index P cell topo q ((a + 1) * (P + 1) + (b + 1)) =
      topo.vertex_count + topo.edge_count * (P - 1) + q * (P - 1) ^ 2
        + a * (P - 1) + b := by
  rw [bipoly_element_node_index_ij_eq P cell topo q (a + 1) (b + 1) (by omega),
    ij_interior P cell topo q (a + 1) (b + 1) (by omega) (by omega) (by omega) (by omega)]
  have h1 : a + 1 - 1 = a := rfl
  rw [h1]
  omega

theorem bipoly_interior_node_lt (P a b : Nat) (hP2 : 2 ≤ P)
    (ha : a < P - 1) (hb : b < P - 1) :
    (a + 1) * (P + 1) + (b + 1) < (P + 1) ^ 2 := by
  have h1 : (a + 1) * (P + 1) ≤ (P - 1) * (P + 1) :=
    Nat.mul_le_mul_right _ (by omega)
  have h2 : (P - 1) * (P + 1) + 2 * (P + 1) = (P + 1) * (P + 1) := by
    have h3 : P - 1 + 2 = P + 1 := by omega
    calc (P - 1) * (P + 1) + 2 * (P + 1) = (P - 1 + 2) * (P + 1) := by ring
    _ = (P + 1) * (P + 1) := by rw [h3]
  have h4 : (P + 1) ^ 2 = (P + 1) * (P + 1) := by ring
  omega

theorem bipoly_image_eq (P : Nat) (cell : Quadmesh2DCellArg)
    (topo : Quadmesh2DTopologyArg) (C : Nat)
    (hsc : SelfConsistentMesh cell topo C) (hP : 1 ≤ P) :
    bipoly_dof_image P cell topo C =
      Finset.range (bipoly_node_count P topo.vertex_count topo.edge_count C) := by
  have hcount : bipoly_node_count P topo.vertex_count topo.edge_count C =
      topo.vertex_count + topo.edge_count * (P - 1) + C * (P - 1) ^ 2 := by
    simp [bipoly_node_count, Nat.zero_max]
  apply Finset.ext
  intro x
  simp only [bipoly_dof_image, Finset.mem_image, Finset.mem_product, Finset.mem_range,
    Prod.exists]
  constructor
  · rintro ⟨q, n, ⟨hq, hn⟩, rfl⟩
    rw [bipoly_master P cell topo q n hP hn]
    exact bipoly_dof_value_lt P topo C _ hP
      (bipoly_phys_valid_node P cell topo C q n hsc hP hq hn)
  · intro hx
    by_cases hxV : x < topo.vertex_count
    · obtain ⟨q, hq, k, hk, hqv⟩ := hsc.2.2.2.2.1 x hxV
      exact ⟨q, bipoly_node_on_slot P k 0,
        ⟨hq, bipoly_node_on_slot_lt P k 0 hk (by omega)⟩,
        by rw [bipoly_corner_eval P cell topo q k hP hk, hqv]⟩
    · by_cases hxE : x < topo.vertex_count + topo.edge_count * (P - 1)
      · have hP2 : 2 ≤ P := by
          by_contra hcon
          have h1 : P - 1 = 0 := by omega
          rw [h1, Nat.mul_zero] at hxE
          omega
        have hyE : x - topo.vertex_count < topo.edge_count * (P - 1) := by omega
        have hrlt : (x - topo.vertex_count) % (P - 1) < P - 1 :=
          Nat.mod_lt _ (by omega)
        have helt : (x - topo.vertex_count) / (P - 1) < topo.edge_count := by
          apply Nat.div_lt_of_lt_mul
          rw [Nat.mul_comm]
          exact hyE
        obtain ⟨q, hq, k, hk, hqe⟩ := hsc.2.2.2.2.2 _ helt
        have hdm := Nat.div_add_mod (x - topo.vertex_count) (P - 1)
        refine ⟨q, bipoly_node_on_slot P k (slot_pos cell P q k
            (topo.edge_vertex_indices
              ((x - topo.vertex_count) / (P - 1))).1
            (P - 1 - (x - topo.vertex_count) % (P - 1))),
          ⟨hq, bipoly_node_on_slot_lt P k _ hk
            (slot_pos_le cell P q k _ _ (by omega))⟩, ?_⟩
        have hcanon := (slot_dof_of_selfconsistent P cell topo C q k
          ((x - topo.vertex_count) / (P - 1))
          (P - 1 - (x - topo.vertex_count) % (P - 1))
          hsc hP hq hk hqe (by omega)).1
        rw [hcanon]
        unfold bipoly_canonical_dof
        rw [if_neg (by omega), if_neg (by omega)]
        have hmod : P - (P - 1 - (x - topo.vertex_count) % (P - 1)) - 1 =
            (x - topo.vertex_count) % (P - 1) := by omega
        rw [hmod]
        omega
      · rw [hcount] at hx
        have hx2 : x - (topo.vertex_count + topo.edge_count * (P - 1)) <
            C * (P - 1) ^ 2 := by omega
        have hP2 : 2 ≤ P := by
          by_contra hcon
          have h1 : P - 1 = 0 := by omega
          rw [h1] at hx2
          simp at hx2
        have hsqpos : 0 < (P - 1) ^ 2 := Nat.pos_pow_of_pos 2 (by omega)
        have hsq : (P - 1) ^ 2 = (P - 1) * (P - 1) := by ring
        have hqlt : (x - (topo.vertex_count + topo.edge_count * (P - 1))) / (P - 1) ^ 2
            < C := by
          apply Nat.div_lt_of_lt_mul
          rw [Nat.mul_comm ((P - 1) ^ 2) C]
          exact hx2
        have hrest : (x - (topo.vertex_count + topo.edge_count * (P - 1))) % (P - 1) ^ 2
            < (P - 1) ^ 2 := Nat.mod_lt _ hsqpos
        have halt : ((x - (topo.vertex_count + topo.edge_count * (P - 1))) % (P - 1) ^ 2)
            / (P - 1) < P - 1 := by
          apply Nat.div_lt_of_lt_mul
          rw [← hsq]
          exact hrest
        have hblt : ((x - (topo.vertex_count + topo.edge_count * (P - 1))) % (P - 1) ^ 2)
            % (P - 1) < P - 1 := Nat.mod_lt _ (by omega)
        refine ⟨(x - (topo.vertex_count + topo.edge_count * (P - 1))) / (P - 1) ^ 2,
          (((x - (topo.vertex_count + topo.edge_count * (P - 1))) % (P - 1) ^ 2)
              / (P - 1) + 1) * (P + 1) +
            (((x - (topo.vertex_count + topo.edge_count * (P - 1))) % (P - 1) ^ 2)
              % (P - 1) + 1),
          ⟨hqlt, bipoly_interior_node_lt P _ _ hP2 halt hblt⟩, ?_⟩
        rw [bipoly_interior_eval P cell topo _ _ _ hP2 halt hblt]
        have hdm1 := Nat.div_add_mod
          (x - (topo.vertex_count + topo.edge_count * (P - 1))) ((P - 1) ^ 2)
        have hdm2 := Nat.div_add_mod
          ((x - (topo.vertex_count + topo.edge_count * (P - 1))) % (P - 1) ^ 2) (P - 1)
        have hc1 : (P - 1) ^ 2 *
            ((x - (topo.vertex_count + topo.edge_count * (P - 1))) / (P - 1) ^ 2) =
            ((x - (topo.vertex_count + topo.edge_count * (P - 1))) / (P - 1) ^ 2) *
              (P - 1) ^ 2 := Nat.mul_comm _ _
        have hc2 : (P - 1) *
            (((x - (topo.vertex_count + topo.edge_count * (P - 1))) % (P - 1) ^ 2)
              / (P - 1)) =
            (((x - (topo.vertex_count + topo.edge_count * (P - 1))) % (P - 1) ^ 2)
              / (P - 1)) * (P - 1) := Nat.mul_comm _ _
        omega

theorem bipoly_index_iff (P : Nat) (cell : Quadmesh2DCellArg)
    (topo : Quadmesh2DTopologyArg) (C q n qp np : Nat)
    (hsc : SelfConsistentMesh cell topo C) (hP : 1 ≤ P)
    (hq : q < C) (hn : n < (P + 1) ^ 2) (hqp : qp < C) (hnp : np < (P + 1) ^ 2) :
    bipoly_element_node_index P cell topo q n =
        bipoly_element_node_index P cell topo qp np ↔
      bipoly_phys_node P cell topo q n = bipoly_phys_node P cell topo qp np := by
  rw [bipoly_master P cell topo q n hP hn, bipoly_master P cell topo qp np hP hnp]
  constructor
  · intro h
    exact bipoly_dof_value_inj P topo C _ _ hP
      (bipoly_phys_valid_node P cell topo C q n hsc hP hq hn)
      (bipoly_phys_valid_node P cell topo C qp np hsc hP hqp hnp) h
  · intro h
    rw [h]

theorem slot_pos_canon (P : Nat) (cell : Quadmesh2DCellArg)
    (topo : Quadmesh2DTopologyArg) (q k p : Nat) (hp : p ≤ P) :
    slot_pos cell P q k
      (topo.edge_vertex_indices (topo.quad_edge_indices q k)).1
      (canon_pos P cell topo q k p) = p := by
  by_cases hc : cell.quad_vertex_indices q k =
      (topo.edge_vertex_indices (topo.quad_edge_indices q k)).1
  · simp [slot_pos, canon_pos, hc]
  · simp [slot_pos, canon_pos, hc]
    omega

theorem serendipity_slot_master (P : Nat) (cell : Quadmesh2DCellArg)
    (topo : Quadmesh2DTopologyArg) (C q k p : Nat)
    (hsc : SelfConsistentMesh cell topo C) (hP2 : 2 ≤ P) (hq : q < C) (hk : k < 4)
    (hp1 : 1 ≤ p) (hp2 : p ≤ P - 1) :
    serendipity_element_node_index P cell topo q (serendipity_node_on_slot P k p) =
      topo.vertex_count + (P - 1) * topo.quad_edge_indices q k +
        (canon_pos P cell topo q k p - 1) := by
  have hcp : 1 ≤ canon_pos P cell topo q k p ∧ canon_pos P cell topo q k p ≤ P - 1 := by
    unfold canon_pos
    split <;> omega
  have h1 := (slot_dof_of_selfconsistent P cell topo C q k (topo.quad_edge_indices q k)
    (canon_pos P cell topo q k p) hsc (by omega) hq hk rfl (by omega)).2
  rw [slot_pos_canon P cell topo q k p (by omega)] at h1
  rw [h1]
  unfold serendipity_canonical_dof
  rw [if_neg (by omega), if_neg (by omega)]

theorem serendipity_master (P : Nat) (cell : Quadmesh2DCellArg)
    (topo : Quadmesh2DTopologyArg) (C q n : Nat)
    (hsc : SelfConsistentMesh cell topo C) (hP : 1 ≤ P) (hq : q < C)
    (hn : n < 4 + 4 * (P - 1)) :
    serendipity_element_node_index P cell topo q n =
      serendipity_dof_value P topo (serendipity_phys_node P cell topo q n) := by
  by_cases h4 : n < 4
  · rw [serendipity_vertex_eval P cell topo q n h4]
    simp [serendipity_phys_node, h4, serendipity_dof_value]
  · have hP2 : 2 ≤ P := by omega
    by_cases hb1 : n - 4 < P - 1
    · have hnode : serendipity_node_on_slot P 0 (n - 4 + 1) = n := by
        simp [serendipity_node_on_slot, (show ¬ (n - 4 + 1 = 0) by omega),
          (show ¬ (n - 4 + 1 = P) by omega)]
        omega
      have hphys : serendipity_phys_node P cell topo q n =
          PhysNode.edgeNode (topo.quad_edge_indices q 0)
            (canon_pos P cell topo q 0 (n - 4 + 1)) := by
        simp [serendipity_phys_node, h4, hb1]
      rw [← hnode, serendipity_slot_master P cell topo C q 0 (n - 4 + 1) hsc hP2 hq
        (by omega) (by omega) (by omega), hnode, hphys]
      rfl
    · by_cases hb2 : n - 4 < 2 * (P - 1)
      · have hnode : serendipity_node_on_slot P 2 (P - (n - 4 - (P - 1)) - 1) = n := by
          simp [serendipity_node_on_slot, (show ¬ (P - (n - 4 - (P - 1)) - 1 = 0) by omega),
            (show ¬ (P - (n - 4 - (P - 1)) - 1 = P) by omega)]
          omega
        have hphys : serendipity_phys_node P cell topo q n =
            PhysNode.edgeNode (topo.quad_edge_indices q 2)
              (canon_pos P cell topo q 2 (P - (n - 4 - (P - 1)) - 1)) := by
          simp [serendipity_phys_node, h4, hb1, hb2]
        rw [← hnode, serendipity_slot_master P cell topo C q 2 (P - (n - 4 - (P - 1)) - 1)
          hsc hP2 hq (by omega) (by omega) (by omega), hnode, hphys]
        rfl
      · by_cases hb3 : n - 4 < 3 * (P - 1)
        · have hnode : serendipity_node_on_slot P 3
              (P - (n - 4 - 2 * (P - 1)) - 1) = n := by
            simp [serendipity_node_on_slot,
              (show ¬ (P - (n - 4 - 2 * (P - 1)) - 1 = 0) by omega),
              (show ¬ (P - (n - 4 - 2 * (P - 1)) - 1 = P) by omega)]
            omega
          have hphys : serendipity_phys_node P cell topo q n =
              PhysNode.edgeNode (topo.quad_edge_indices q 3)
                (canon_pos P cell topo q 3 (P - (n - 4 - 2 * (P - 1)) - 1)) := by
            simp [serendipity_phys_node, h4, hb1, hb2, hb3]
          rw [← hnode, serendipity_slot_master P cell topo C q 3
            (P - (n - 4 - 2 * (P - 1)) - 1) hsc hP2 hq (by omega) (by omega) (by omega),
            hnode, hphys]
          rfl
        · have hnode : serendipity_node_on_slot P 1
              (n - 4 - 3 * (P - 1) + 1) = n := by
            simp [serendipity_node_on_slot,
              (show ¬ (n - 4 - 3 * (P - 1) + 1 = 0) by omega),
              (show ¬ (n - 4 - 3 * (P - 1) + 1 = P) by omega)]
            omega
          have hphys : serendipity_phys_node P cell topo q n =
              PhysNode.edgeNode (topo.quad_edge_indices q 1)
                (canon_pos P cell topo q 1 (n - 4 - 3 * (P - 1) + 1)) := by
            simp [serendipity_phys_node, h4, hb1, hb2, hb3]
          rw [← hnode, serendipity_slot_master P cell topo C q 1
            (n - 4 - 3 * (P - 1) + 1) hsc hP2 hq (by omega) (by omega) (by omega),
            hnode, hphys]
          rfl

theorem serendipity_phys_valid_node (P : Nat) (cell : Quadmesh2DCellArg)
    (topo : Quadmesh2DTopologyArg) (C q n : Nat)
    (hsc : SelfConsistentMesh cell topo C) (hP : 1 ≤ P) (hq : q < C)
    (hn : n < 4 + 4 * (P - 1)) :
    serendipity_phys_valid P topo.vertex_count topo.edge_count
      (serendipity_phys_node P cell topo q n) := by
  obtain ⟨hv, hec, -, -, -, -⟩ := hsc
  by_cases h4 : n < 4
  · simp only [serendipity_phys_node, if_pos h4]
    show cell.quad_vertex_indices q (SHAPE_TO_QUAD_IDX n) < topo.vertex_count
    interval_cases n
    · exact hv q hq 0 (by norm_num [SHAPE_TO_QUAD_IDX])
    · exact hv q hq 3 (by norm_num [SHAPE_TO_QUAD_IDX])
    · exact hv q hq 1 (by norm_num [SHAPE_TO_QUAD_IDX])
    · exact hv q hq 2 (by norm_num [SHAPE_TO_QUAD_IDX])
  · have hP2 : 2 ≤ P := by omega
    by_cases hb1 : n - 4 < P - 1
    · simp only [serendipity_phys_node, if_neg h4, if_pos hb1]
      refine ⟨hec q hq 0 (by omega), ?_⟩
      unfold canon_pos
      split <;> omega
    · by_cases hb2 : n - 4 < 2 * (P - 1)
      · simp only [serendipity_phys_node, if_neg h4, if_neg hb1, if_pos hb2]
        refine ⟨hec q hq 2 (by omega), ?_⟩
        unfold canon_pos
        split <;> omega
      · by_cases hb3 : n - 4 < 3 * (P - 1)
        · simp only [serendipity_phys_node, if_neg h4, if_neg hb1, if_neg hb2, if_pos hb3]
          refine ⟨hec q hq 3 (by omega), ?_⟩
          unfold canon_pos
          split <;> omega
        · simp only [serendipity_phys_node, if_neg h4, if_neg hb1, if_neg hb2, if_neg hb3]
          refine ⟨hec q hq 1 (by omega), ?_⟩
          unfold canon_pos
          split <;> omega

theorem serendipity_edge_dof_lt (P V E e t : Nat) (he : e < E) (ht1 : 1 ≤ t)
    (ht2 : t ≤ P - 1) :
    V + (P - 1) * e + (t - 1) < V + (P - 1) * E := by
  have h1 : (P - 1) * (e + 1) = (P - 1) * e + (P - 1) := by ring
  have h2 : (P - 1) * (e + 1) ≤ (P - 1) * E := Nat.mul_le_mul_left _ (by omega)
  omega

theorem serendipity_dof_value_lt (P : Nat) (topo : Quadmesh2DTopologyArg)
    (x : PhysNode)
    (hval : serendipity_phys_valid P topo.vertex_count topo.edge_count x) :
    serendipity_dof_value P topo x <
      serendipity_node_count P topo.vertex_count topo.edge_count := by
  unfold serendipity_node_count
  rcases x with v | ⟨e, t⟩ | ⟨q, a, b⟩
  · have hv : v < topo.vertex_count := hval
    simp only [serendipity_dof_value]
    have h1 : (P - 1) * topo.edge_count + topo.vertex_count =
      topo.vertex_count + (P - 1) * topo.edge_count := by ring
    omega
  · obtain ⟨he, ht1, ht2⟩ := hval
    simp only [serendipity_dof_value]
    exact serendipity_edge_dof_lt P topo.vertex_count topo.edge_count e t he ht1 ht2
  · exact absurd hval (by simp [serendipity_phys_valid])

theorem serendipity_dof_value_inj (P : Nat) (topo : Quadmesh2DTopologyArg)
    (x y : PhysNode)
    (hx : serendipity_phys_valid P topo.vertex_count topo.edge_count x)
    (hy : serendipity_phys_valid P topo.vertex_count topo.edge_count y)
    (h : serendipity_dof_value P topo x = serendipity_dof_value P topo y) : x = y := by
  rcases x with v | ⟨e, t⟩ | ⟨q, a, b⟩ <;> rcases y with w | ⟨f, u⟩ | ⟨r, c, d⟩ <;>
    simp only [serendipity_dof_value, serendipity_phys_valid] at h hx hy
  · rw [h]
  · exact absurd h (by omega)
  · exact absurd h (by omega)
  · have h' : (P - 1) * e + (t - 1) = (P - 1) * f + (u - 1) := by omega
    obtain ⟨hef, hoff⟩ := mul_add_lt_inj (P - 1) e (t - 1) f (u - 1)
      (by omega) (by omega) h'
    have : t = u := by omega
    rw [hef, this]

theorem serendipity_node_on_slot_lt (P k p : Nat) (hk : k < 4) (hp : p ≤ P) :
    serendipity_node_on_slot P k p < 4 + 4 * (P - 1) := by
  by_cases hp0 : p = 0
  · interval_cases k <;> simp [serendipity_node_on_slot, QUAD_TO_SHAPE_IDX, hp0] <;> omega
  · by_cases hpP : p = P
    · have hP0 : ¬ (P = 0) := by omega
      interval_cases k <;>
        simp [serendipity_node_on_slot, QUAD_TO_SHAPE_IDX, slot_second, hp0, hpP, hP0] <;>
        omega
    · interval_cases k <;> simp [serendipity_node_on_slot, hp0, hpP] <;> omega

theorem serendipity_image_eq (P : Nat) (cell : Quadmesh2DCellArg)
    (topo : Quadmesh2DTopologyArg) (C : Nat)
    (hsc : SelfConsistentMesh cell topo C) (hP : 1 ≤ P) :
    serendipity_dof_image P cell topo C =
      Finset.range (serendipity_node_count P topo.vertex_count topo.edge_count) := by
  apply Finset.ext
  intro x
  simp only [serendipity_dof_image, Finset.mem_image, Finset.mem_product, Finset.mem_range,
    Prod.exists]
  constructor
  · rintro ⟨q, n, ⟨hq, hn⟩, rfl⟩
    rw [serendipity_master P cell topo C q n hsc hP hq hn]
    exact serendipity_dof_value_lt P topo _
      (serendipity_phys_valid_node P cell topo C q n hsc hP hq hn)
  · intro hx
    unfold serendipity_node_count at hx
    by_cases hxV : x < topo.vertex_count
    · obtain ⟨q, hq, k, hk, hqv⟩ := hsc.2.2.2.2.1 x hxV
      refine ⟨q, QUAD_TO_SHAPE_IDX k, ⟨hq, ?_⟩, ?_⟩
      · interval_cases k <;> simp [QUAD_TO_SHAPE_IDX] <;> omega
      · rw [serendipity_corner_eval P cell topo q k hk, hqv]
    · have hP2 : 2 ≤ P := by
        by_contra hcon
        have h1 : P - 1 = 0 := by omega
        rw [h1, Nat.zero_mul] at hx
        omega
      have hyE : x - topo.vertex_count < (P - 1) * topo.edge_count := by omega
      have hrlt : (x - topo.vertex_count) % (P - 1) < P - 1 :=
        Nat.mod_lt _ (by omega)
      have helt : (x - topo.vertex_count) / (P - 1) < topo.edge_count :=
        Nat.div_lt_of_lt_mul hyE
      obtain ⟨q, hq, k, hk, hqe⟩ := hsc.2.2.2.2.2 _ helt
      have hdm := Nat.div_add_mod (x - topo.vertex_count) (P - 1)
      refine ⟨q, serendipity_node_on_slot P k (slot_pos cell P q k
          (topo.edge_vertex_indices
            ((x - topo.vertex_count) / (P - 1))).1
          ((x - topo.vertex_count) % (P - 1) + 1)),
        ⟨hq, serendipity_node_on_slot_lt P k _ hk
          (slot_pos_le cell P q k _ _ (by omega))⟩, ?_⟩
      have hcanon := (slot_dof_of_selfconsistent P cell topo C q k
        ((x - topo.vertex_count) / (P - 1))
        ((x - topo.vertex_count) % (P - 1) + 1)
        hsc hP hq hk hqe (by omega)).2
      rw [hcanon]
      unfold serendipity_canonical_dof
      rw [if_neg (by omega), if_neg (by omega)]
      have hsub : (x - topo.vertex_count) % (P - 1) + 1 - 1 =
          (x - topo.vertex_count) % (P - 1) := rfl
      rw [hsub]
      omega

theorem serendipity_index_iff (P : Nat) (cell : Quadmesh2DCellArg)
    (topo : Quadmesh2DTopologyArg) (C q n qp np : Nat)
    (hsc : SelfConsistentMesh cell topo C) (hP : 1 ≤ P)
    (hq : q < C) (hn : n < 4 + 4 * (P - 1)) (hqp : qp < C)
    (hnp : np < 4 + 4 * (P - 1)) :
    serendipity_element_node_index P cell topo q n =
        serendipity_element_node_index P cell topo qp np ↔
      serendipity_phys_node P cell topo q n =
        serendipity_phys_node P cell topo qp np := by
  rw [serendipity_master P cell topo C q n hsc hP hq hn,
    serendipity_master P cell topo C qp np hsc hP hqp hnp]
  constructor
  · intro h
    exact serendipity_dof_value_inj P topo _ _
      (serendipity_phys_valid_node P cell topo C q n hsc hP hq hn)
      (serendipity_phys_valid_node P cell topo C qp np hsc hP hqp hnp) h
  · intro h
    rw [h]

/-- C5: for every self-consistent mesh and every order `P ≥ 1`, the set of
global indices obtained by evaluating `element_node_index` on all
`(element_index, node_index_in_elt)` pairs is exactly `[0, node_count())`
with no gaps, and — identifying pairs by the physical node they refer to —
two pairs receive the same global index exactly when they refer to the same
physical vertex, shared edge node or cell-interior node; this holds for
both the Bipolynomial and the Serendipity variant. -/
theorem C5_bijectivity (P : Nat) (cell : Quadmesh2DCellArg)
    (topo : Quadmesh2DTopologyArg) (C : Nat)
    (hsc : SelfConsistentMesh cell topo C) (hP : 1 ≤ P) :
    (bipoly_dof_image P cell topo C =
      Finset.range (bipoly_node_count P topo.vertex_count topo.edge_count C)) ∧
    (∀ q < C, ∀ n < (P + 1) ^ 2, ∀ qp < C, ∀ np < (P + 1) ^ 2,
      (bipoly_element_node_index P cell topo q n =
          bipoly_element_node_index P cell topo qp np ↔
        bipoly_phys_node P cell topo q n = bipoly_phys_node P cell topo qp np)) ∧
    (serendipity_dof_image P cell topo C =
      Finset.range (serendipity_node_count P topo.vertex_count topo.edge_count)) ∧
    (∀ q < C, ∀ n < 4 + 4 * (P - 1), ∀ qp < C, ∀ np < 4 + 4 * (P - 1),
      (serendipity_element_node_index P cell topo q n =
          serendipity_element_node_index P cell topo qp np ↔
        serendipity_phys_node P cell topo q n =
          serendipity_phys_node P cell topo qp np)) := by
  refine ⟨bipoly_image_eq P cell topo C hsc hP, ?_,
    serendipity_image_eq P cell topo C hsc hP, ?_⟩
  · intro q hq n hn qp hqp np hnp
    exact bipoly_index_iff P cell topo C q n qp np hsc hP hq hn hqp hnp
  · intro q hq n hn qp hqp np hnp
    exact serendipity_index_iff P cell topo C q n qp np hsc hP hq hn hqp hnp

/-- Witness for C5: the 2x1 strip mesh at order 2. -/
theorem C5_bijectivity_witness :
    (SelfConsistentMesh strip_cell strip_topo 2 ∧ (1 : Nat) ≤ 2) ∧
    ((bipoly_dof_image 2 strip_cell strip_topo 2 =
      Finset.range (bipoly_node_count 2 strip_topo.vertex_count strip_topo.edge_count 2)) ∧
    (∀ q < 2, ∀ n < (2 + 1) ^ 2, ∀ qp < 2, ∀ np < (2 + 1) ^ 2,
      (bipoly_element_node_index 2 strip_cell strip_topo q n =
          bipoly_element_node_index 2 strip_cell strip_topo qp np ↔
        bipoly_phys_node 2 strip_cell strip_topo q n =
          bipoly_phys_node 2 strip_cell strip_topo qp np)) ∧
    (serendipity_dof_image 2 strip_cell strip_topo 2 =
      Finset.range (serendipity_node_count 2 strip_topo.vertex_count strip_topo.edge_count)) ∧
    (∀ q < 2, ∀ n < 4 + 4 * (2 - 1), ∀ qp < 2, ∀ np < 4 + 4 * (2 - 1),
      (serendipity_element_node_index 2 strip_cell strip_topo q n =
          serendipity_element_node_index 2 strip_cell strip_topo qp np ↔
        serendipity_phys_node 2 strip_cell strip_topo q n =
          serendipity_phys_node 2 strip_cell strip_topo qp np))) :=
  ⟨⟨by decide, by decide⟩, C5_bijectivity 2 strip_cell strip_topo 2 (by decide) (by decide)⟩
